import Mathlib

/-!
# voidrunner: token manager, auth service and in-memory user store

A shallow embedding of the token manager (`pkg/auth/jwt.go`), with the parts of the JWT
library (`github.com/golang-jwt/jwt/v5`) and of Go's `crypto/hmac` that it calls, of the
auth service (`internal/services/auth_service.go`) and of the in-memory user repository
(`internal/repositories/memory_user_repository.go`).

Conventions of the embedding.

* A clock reading (`time.Now()`) is an explicit argument `now`, an integer number of
  nanoseconds since the Unix epoch (`time.Time.UnixNano`); a `time.Duration` is an integer
  number of nanoseconds.  Clock readings are taken inside the range in which `UnixNano`
  is defined, so no 64-bit wrap-around is modelled.
* Go strings that travel through JSON (user name, email, token id) are Lean strings; the
  Go `int` user id is an integer.
* A byte slice is a list of naturals (each below 256).  The manager's secret is kept as
  the bytes `[]byte(secret)`.
* `*TokenManager` is mutated in place by `RevokeToken`; here `RevokeToken` returns the
  manager after the call next to the returned error.
* A token string is kept in decoded form (`TokenString`): either a string that the
  library cannot split and decode, or the decoded header algorithm, claims and signature
  bytes of a three-segment token.  The hash functions (SHA-256/384/512) and the text of
  the first two segments that is signed are parameters (`Crypto`).
* The auth service works on a repository interface (`UserRepository`); a repository call
  takes the state and returns the state after it.  What a call takes from the runtime
  (the iteration order of a Go map, clock readings, the salt of the hasher) is an explicit
  argument.
* The user id is a Go `int`, taken to be 64 bits wide: the sum `maxID + 1` of `CreateUser`
  wraps around at `MaxInt64` (`wrapInt64`).  The ids held in a map are Go `int` values, so
  comparing them needs no wrapping.
* The password hasher (`pkg/auth/password.go`) and the Unicode lower-casing table are
  parameters of the auth service (`PasswordHasher`, `StdLib`).  The hasher itself is
  modelled from the specification (`DigestScheme`, `HashPassword`, `CheckPasswordHash`).
* Of the auth handler (`internal/handlers/auth_handler.go`) the error branches are
  embedded: the status and body written for an error of the service.
-/

namespace VoidRunner

/-! ## Basic types -/

/-- A byte slice. -/
abbrev Bytes := List Nat

/-- A wall-clock reading, in nanoseconds since the Unix epoch. -/
abbrev Time := Int

/-- A `time.Duration`, in nanoseconds. -/
abbrev Duration := Int

/-- The constant `time.Second`. -/
def Second : Duration := 1000000000

/-! ## `fmt.Sprintf("%d_%d", ...)` -/

/-- Decimal digits of a natural number, most significant first (the verb `%d`). -/
def formatNat (n : Nat) : List Char :=
  Nat.toDigits 10 n

/-- The verb `%d` on a signed integer. -/
def formatInt : Int → List Char
  | Int.ofNat n => formatNat n
  | Int.negSucc n => '-' :: formatNat (n + 1)

/-- The call `fmt.Sprintf("%d_%d", a, b)`. -/
def sprintfIdPair (a b : Int) : String :=
  String.mk (formatInt a ++ '_' :: formatInt b)

/-- Digits of `n`, least significant first, with the single digit `0` for zero. -/
def decimalDigits (n : Nat) : List Nat :=
  if n = 0 then [0] else Nat.digits 10 n

/-! ## The JWT library: claims, signing methods, tokens -/

/-- The struct `jwt.RegisteredClaims`; a numeric date is an optional time. -/
structure RegisteredClaims where
  Issuer : String
  Subject : String
  Audience : List String
  ExpiresAt : Option Time
  NotBefore : Option Time
  IssuedAt : Option Time
  ID : String
  deriving DecidableEq, Repr

/-- The struct `Claims` of `jwt.go`, which embeds `jwt.RegisteredClaims`. -/
structure Claims extends RegisteredClaims where
  UserID : Int
  Username : String
  Email : String
  deriving DecidableEq, Repr

/-- The signing methods registered with the library: the three of type
`*jwt.SigningMethodHMAC`, and every other registered method (RSA, ECDSA, EdDSA, none). -/
inductive SigningMethod
  | HS256
  | HS384
  | HS512
  | other (alg : String)
  deriving DecidableEq, Repr

/-- The type assertion `token.Method.(*jwt.SigningMethodHMAC)`. -/
def SigningMethod.isHMAC : SigningMethod → Bool
  | .HS256 => true
  | .HS384 => true
  | .HS512 => true
  | .other _ => false

/-- Block size in bytes of the hash of an HMAC method (SHA-256: 64, SHA-384/512: 128). -/
def SigningMethod.blockSize : SigningMethod → Nat
  | .HS256 => 64
  | _ => 128

/-- A token string as the library sees it: `malformed raw` is a string that cannot be
split into three base64url segments with a JSON header naming a registered algorithm,
JSON claims and a decodable signature; `encoded` carries the decoded segments. -/
inductive TokenString
  | malformed (raw : String)
  | encoded (method : SigningMethod) (claims : Claims) (signature : Bytes)
  deriving DecidableEq, Repr

/-- The token id (`jti`) carried by a token string, when it decodes. -/
def TokenString.jti : TokenString → Option String
  | .malformed _ => none
  | .encoded _ claims _ => some claims.ID

/-- The primitives the library takes from elsewhere: the hash function of each HMAC
method, and the text `base64url(header) + "." + base64url(claims)` that is signed. -/
structure Crypto where
  hash : SigningMethod → Bytes → Bytes
  signingString : SigningMethod → Claims → Bytes

/-- Key block of `hmac.New`: a key longer than the block is hashed first, then the key is
copied into a zeroed block. -/
def hmacKeyBlock (hash : Bytes → Bytes) (blockSize : Nat) (key : Bytes) : Bytes :=
  let key := if key.length > blockSize then hash key else key
  (key ++ List.replicate blockSize 0).take blockSize

/-- The MAC of `crypto/hmac`: `H((K xor opad) ++ H((K xor ipad) ++ msg))`. -/
def hmacSum (hash : Bytes → Bytes) (blockSize : Nat) (key msg : Bytes) : Bytes :=
  let block := hmacKeyBlock hash blockSize key
  hash (block.map (fun b => Nat.xor b 0x5c) ++ hash (block.map (fun b => Nat.xor b 0x36) ++ msg))

/-- Errors of the library that `jwt.go` can observe.  `ErrTokenInvalidClaims` carries
which of the joined validation errors (`ErrTokenExpired`, `ErrTokenNotValidYet`) it wraps. -/
inductive JWTError
  | ErrTokenMalformed
  | ErrTokenUnverifiable
  | ErrTokenSignatureInvalid
  | ErrTokenInvalidClaims (expired notValidYet : Bool)
  deriving DecidableEq, Repr

/-- The test `errors.Is(err, jwt.ErrTokenExpired)`. -/
def JWTError.isErrTokenExpired : JWTError → Bool
  | .ErrTokenInvalidClaims expired _ => expired
  | _ => false

/-- The method `SigningMethodHMAC.Sign` with a `[]byte` key. -/
def SigningMethod.Sign (C : Crypto) (m : SigningMethod) (signingString key : Bytes) :
    Except JWTError Bytes :=
  if m.isHMAC then .ok (hmacSum (C.hash m) m.blockSize key signingString)
  else .error .ErrTokenUnverifiable

/-- The method `Verify` with a `[]byte` key: an HMAC method recomputes the MAC and compares;
every other method rejects a `[]byte` key. -/
def SigningMethod.Verify (C : Crypto) (m : SigningMethod) (signingString sig key : Bytes) :
    Bool :=
  m.isHMAC && decide (sig = hmacSum (C.hash m) m.blockSize key signingString)

/-- The function `jwt.NewNumericDate`: truncation to `jwt.TimePrecision`, one second. -/
def NewNumericDate (t : Time) : Time := t - t % Second

/-- Validator check of `exp`: absent, or `now` before it. -/
def verifyExpiresAt (claims : Claims) (now : Time) : Bool :=
  match claims.ExpiresAt with
  | none => true
  | some exp => decide (now < exp)

/-- Validator check of `nbf`: absent, or `now` not before it. -/
def verifyNotBefore (claims : Claims) (now : Time) : Bool :=
  match claims.NotBefore with
  | none => true
  | some nbf => !decide (now < nbf)

/-- The method `Validator.Validate` with the default options (no leeway, `iat` not
checked, no expected audience, issuer or subject). -/
def Validate (claims : Claims) (now : Time) : Except JWTError Unit :=
  if verifyExpiresAt claims now && verifyNotBefore claims now then .ok ()
  else .error (.ErrTokenInvalidClaims (!verifyExpiresAt claims now) (!verifyNotBefore claims now))

/-- The struct `jwt.Token` after parsing. -/
structure Token where
  Method : SigningMethod
  Claims : Claims
  Signature : Bytes
  Valid : Bool
  deriving DecidableEq, Repr

/-- The function `jwt.ParseWithClaims`: decode, look up the key, verify the signature,
validate the claims, in this order. -/
def ParseWithClaims (C : Crypto) (now : Time) (tokenString : TokenString)
    (keyFunc : SigningMethod → Option Bytes) : Except JWTError Token :=
  match tokenString with
  | .malformed _ => .error .ErrTokenMalformed
  | .encoded method claims signature =>
    match keyFunc method with
    | none => .error .ErrTokenUnverifiable
    | some key =>
      if method.Verify C (C.signingString method claims) signature key then
        match Validate claims now with
        | .error e => .error e
        | .ok _ => .ok { Method := method, Claims := claims, Signature := signature, Valid := true }
      else .error .ErrTokenSignatureInvalid

/-- The call `jwt.NewWithClaims(method, claims)` followed by `token.SignedString(key)`. -/
def SignedString (C : Crypto) (method : SigningMethod) (claims : Claims) (key : Bytes) :
    Except JWTError TokenString :=
  match method.Sign C (C.signingString method claims) key with
  | .error e => .error e
  | .ok sig => .ok (.encoded method claims sig)

/-! ## `pkg/auth/jwt.go` -/

/-- The two sentinel errors of `jwt.go`. -/
inductive TokenError
  | ErrInvalidToken
  | ErrExpiredToken
  deriving DecidableEq, Repr

/-- The struct `TokenManager`.  The map `revokedJTIs` only ever receives the value `true`,
so it is kept as the set of its keys. -/
structure TokenManager where
  secret : Bytes
  expiryTime : Duration
  revokedJTIs : Finset String

/-- The constructor `NewTokenManager`. -/
def NewTokenManager (secret : Bytes) (expiryTime : Duration) : TokenManager :=
  { secret := secret, expiryTime := expiryTime, revokedJTIs := ∅ }

/-- The key function both `ValidateToken` and `RevokeToken` pass to the parser. -/
def TokenManager.keyFunc (tm : TokenManager) (method : SigningMethod) : Option Bytes :=
  if method.isHMAC then some tm.secret else none

/-- The claims `GenerateToken` builds at clock reading `now`. -/
def TokenManager.newClaims (tm : TokenManager) (now : Time) (userID : Int)
    (username email : String) : Claims :=
  { UserID := userID
    Username := username
    Email := email
    ID := sprintfIdPair userID now
    ExpiresAt := some (NewNumericDate (now + tm.expiryTime))
    IssuedAt := some (NewNumericDate now)
    NotBefore := some (NewNumericDate now)
    Issuer := "voidrunner"
    Subject := ""
    Audience := [] }

/-- Error of `GenerateToken`: "failed to sign token", wrapping the cause. -/
inductive GenerateError
  | failedToSign (cause : JWTError)
  deriving DecidableEq, Repr

/-- The method `TokenManager.GenerateToken`, at clock reading `now`. -/
def GenerateToken (C : Crypto) (tm : TokenManager) (now : Time) (userID : Int)
    (username email : String) : Except GenerateError TokenString :=
  let claims := tm.newClaims now userID username email
  match SignedString C .HS256 claims tm.secret with
  | .error err => .error (.failedToSign err)
  | .ok tokenString => .ok tokenString

/-- The method `TokenManager.ValidateToken`, at clock reading `now`. -/
def ValidateToken (C : Crypto) (tm : TokenManager) (now : Time) (tokenString : TokenString) :
    Except TokenError Claims :=
  match ParseWithClaims C now tokenString tm.keyFunc with
  | .error err =>
    if err.isErrTokenExpired then .error .ErrExpiredToken else .error .ErrInvalidToken
  | .ok token =>
    if !token.Valid then .error .ErrInvalidToken
    else if token.Claims.ID ∈ tm.revokedJTIs then .error .ErrInvalidToken
    else .ok token.Claims

/-- Errors of `RevokeToken`: "failed to parse token for revocation", wrapping the cause,
and "invalid token claims" (returned when the type assertion on the parsed claims fails,
which it cannot after a parse into `&Claims{}`). -/
inductive RevokeError
  | failedToParse (cause : JWTError)
  | invalidTokenClaims
  deriving DecidableEq, Repr

/-- The method `TokenManager.RevokeToken`, at clock reading `now`: the returned error
(`none` for `nil`) and the manager after the call. -/
def RevokeToken (C : Crypto) (tm : TokenManager) (now : Time) (tokenString : TokenString) :
    Option RevokeError × TokenManager :=
  match ParseWithClaims C now tokenString tm.keyFunc with
  | .error err => (some (.failedToParse err), tm)
  | .ok token => (none, { tm with revokedJTIs := insert token.Claims.ID tm.revokedJTIs })

/-- The HS256 signature `GenerateToken` puts on given claims under a secret. -/
def signatureHS256 (C : Crypto) (secret : Bytes) (claims : Claims) : Bytes :=
  hmacSum (C.hash .HS256) SigningMethod.HS256.blockSize secret (C.signingString .HS256 claims)

/-- A call on a token manager, with the clock reading it observes. -/
inductive Call
  | GenerateToken (now : Time) (userID : Int) (username email : String)
  | ValidateToken (now : Time) (tokenString : TokenString)
  | RevokeToken (now : Time) (tokenString : TokenString)

/-- The manager after one call: only `RevokeToken` writes to it. -/
def Call.apply (C : Crypto) (tm : TokenManager) : Call → TokenManager
  | .GenerateToken _ _ _ _ => tm
  | .ValidateToken _ _ => tm
  | .RevokeToken now tokenString => (VoidRunner.RevokeToken C tm now tokenString).2

/-- The manager after a sequence of calls. -/
def runCalls (C : Crypto) (tm : TokenManager) (calls : List Call) : TokenManager :=
  calls.foldl (Call.apply C) tm

/-- Whether a token string decodes to claims whose expiry check fails at `now`. -/
def TokenString.expiredAt : TokenString → Time → Bool
  | .malformed _, _ => false
  | .encoded _ claims _, now => !verifyExpiresAt claims now

deriving instance DecidableEq for Except

/-- A stand-in for the hash functions and the segment encoding, used to evaluate the
definitions on concrete inputs: the "hash" is a two-byte checksum. -/
def sampleCrypto : Crypto :=
  { hash := fun _ bs => [bs.foldl (fun a b => (a * 31 + b) % 256) 7, bs.length % 256]
    signingString := fun _ claims => claims.ID.data.map Char.toNat }

/-- A manager with the secret "s3cr3t" and an expiry of one hour. -/
def sampleManager : TokenManager :=
  NewTokenManager [115, 51, 99, 114, 51, 116] (3600 * Second)

/-- The token `sampleManager` issues at clock reading 0 to user 1, under `sampleCrypto`. -/
def sampleToken : TokenString :=
  .encoded .HS256 (sampleManager.newClaims 0 1 "alice" "alice@x.com")
    (signatureHS256 sampleCrypto sampleManager.secret
      (sampleManager.newClaims 0 1 "alice" "alice@x.com"))

/-! ## Go standard library: `strings`, `unicode`, `time` -/

/-- The function `unicode.IsSpace`: the white-space code points of Unicode. -/
def isSpace (c : Char) : Bool :=
  let n := c.toNat
  (9 ≤ n && n ≤ 13) || n == 32 || n == 0x85 || n == 0xA0 || n == 0x1680 ||
    (0x2000 ≤ n && n ≤ 0x200a) || n == 0x2028 || n == 0x2029 || n == 0x202f ||
    n == 0x205f || n == 0x3000

/-- The function `strings.TrimSpace`: leading and trailing white space removed. -/
def TrimSpace (s : String) : String :=
  String.mk (List.rdropWhile isSpace (s.data.dropWhile isSpace))

/-- What the service takes from the standard library besides `TrimSpace`: the rune
mapping `unicode.ToLower` (a table of the Unicode database) and the layout
`time.RFC3339Nano` of `Time.Format`. -/
structure StdLib where
  toLowerRune : Char → Char
  formatRFC3339Nano : Time → String

/-- The function `strings.ToLower`: `unicode.ToLower` applied to every rune. -/
def ToLower (S : StdLib) (s : String) : String :=
  String.mk (s.data.map S.toLowerRune)

/-! ## `internal/models/user.go` -/

/-- The struct `models.User`. -/
structure User where
  ID : Int
  Username : String
  Email : String
  PasswordHash : String
  FirstName : String
  LastName : String
  CreatedAt : String
  UpdatedAt : String
  deriving DecidableEq, Repr

/-- The struct `models.RegisterRequest`. -/
structure RegisterRequest where
  Username : String
  Email : String
  Password : String
  FirstName : String
  LastName : String
  deriving DecidableEq, Repr

/-- The struct `models.LoginRequest`. -/
structure LoginRequest where
  Identifier : String
  Password : String
  deriving DecidableEq, Repr

/-- The struct `models.LoginResponse`. -/
structure LoginResponse where
  Token : TokenString
  User : User
  deriving DecidableEq, Repr

/-- Whether a token string is the empty string `""`; a three-segment token never is. -/
def TokenString.isEmpty : TokenString → Bool
  | .malformed raw => raw == ""
  | .encoded _ _ _ => false

/-! ## `internal/repositories` -/

/-- Errors a user repository returns: the sentinel `repositories.ErrUserNotFound`, or any
other error, with its text. -/
inductive RepoError
  | ErrUserNotFound
  | other (text : String)
  deriving DecidableEq, Repr

/-- The part of the interface `UserRepository` the auth service calls, over a repository
state `σ`.  A lookup returns a user or an error; `Create` returns the created user (`none`
for a nil pointer) or an error, and the state after the call. -/
structure UserRepository (σ : Type) where
  GetByUsernameOrEmail : σ → String → String → Except RepoError User
  Create : σ → User → Except RepoError (Option User) × σ

/-- The struct `MemoryUserRepository`: the entries of the map `users`, from id to user. -/
structure MemoryUserRepository where
  users : List (Int × User)
  deriving DecidableEq, Repr

/-- The constructor `NewMemoryUserRepository`. -/
def NewMemoryUserRepository : MemoryUserRepository :=
  { users := [] }

/-- What one call on the in-memory repository takes from the runtime: `pick` settles the
unspecified iteration order of a `range` over the map, `now₁` and `now₂` are the two clock
readings of `CreateUser`. -/
structure Nondet where
  pick : Nat
  now₁ : Time
  now₂ : Time

/-- The users stored in the map. -/
def MemoryUserRepository.stored (mur : MemoryUserRepository) : List User :=
  mur.users.map Prod.snd

/-- The method `GetUser`. -/
def MemoryUserRepository.GetUser (mur : MemoryUserRepository) (id : Int) :
    Except RepoError User :=
  match mur.users.lookup id with
  | some user => .ok user
  | none => .error .ErrUserNotFound

/-- The method `GetByUsernameOrEmail`.  The loop returns the first matching user it meets;
as the iteration order of a Go map is unspecified this is any one of the matching users,
the one `pick` selects. -/
def MemoryUserRepository.GetByUsernameOrEmail (mur : MemoryUserRepository) (pick : Nat)
    (username email : String) : Except RepoError User :=
  let found := mur.stored.filter (fun user => user.Username == username || user.Email == email)
  match found[pick % found.length]? with
  | some user => .ok user
  | none => .error .ErrUserNotFound

/-- The largest value of a 64-bit Go `int` (`math.MaxInt64`). -/
def MaxInt64 : Int := 9223372036854775807

/-- The smallest value of a 64-bit Go `int` (`math.MinInt64`). -/
def MinInt64 : Int := -9223372036854775808

/-- The value a 64-bit two's complement Go `int` holds for the integer `x`: arithmetic on
`int` wraps around silently. -/
def wrapInt64 (x : Int) : Int := (x + 2 ^ 63) % 2 ^ 64 - 2 ^ 63

/-- The loop of `CreateUser` that computes the largest id of the map, starting from 0.  The
loop only compares `int` values, so its result is one of them (or 0) and nothing wraps. -/
def MemoryUserRepository.maxID (mur : MemoryUserRepository) : Int :=
  (mur.users.map Prod.fst).foldl (fun maxID id => if id > maxID then id else maxID) 0

/-- The map assignment `users[id] = user`. -/
def mapSet (users : List (Int × User)) (id : Int) (user : User) : List (Int × User) :=
  users.filter (fun entry => entry.1 != id) ++ [(id, user)]

/-- The method `CreateUser` (every error it returns is nil): the returned pointer, `none`
for nil, and the repository after the call.  The id given to a user without one is the
`int` sum `maxID + 1`, which wraps around when `maxID` is `MaxInt64`. -/
def MemoryUserRepository.CreateUser (S : StdLib) (mur : MemoryUserRepository) (n : Nondet)
    (user : Option User) : Option User × MemoryUserRepository :=
  match user with
  | none => (none, mur)
  | some user =>
    let user := if user.ID = 0 then { user with ID := wrapInt64 (mur.maxID + 1) } else user
    if (mur.users.lookup user.ID).isSome then (none, mur)
    else
      let user :=
        if user.CreatedAt = "" then { user with CreatedAt := S.formatRFC3339Nano n.now₁ }
        else user
      let user :=
        if user.UpdatedAt = "" then { user with UpdatedAt := S.formatRFC3339Nano n.now₂ }
        else user
      (some user, { users := mapSet mur.users user.ID user })

/-- The method `Create`, which forwards to `CreateUser`. -/
def MemoryUserRepository.Create (S : StdLib) (mur : MemoryUserRepository) (n : Nondet)
    (user : Option User) : Option User × MemoryUserRepository :=
  mur.CreateUser S n user

/-- The in-memory repository behind the interface, for one call. -/
def memoryRepository (S : StdLib) (n : Nondet) : UserRepository MemoryUserRepository :=
  { GetByUsernameOrEmail := fun mur username email =>
      mur.GetByUsernameOrEmail n.pick username email
    Create := fun mur user =>
      ((Except.ok (mur.Create S n (some user)).1 : Except RepoError (Option User)),
        (mur.Create S n (some user)).2) }

/-! ## `internal/services/auth_service.go` -/

/-- The functions of `pkg/auth/password.go`, as the auth service calls them: `HashPassword`
with the randomness `salt` it draws, returning a digest or an error text, and
`CheckPasswordHash`. -/
structure PasswordHasher where
  HashPassword : Bytes → String → Except String String
  CheckPasswordHash : String → String → Bool

/-- The errors the auth service returns, one for each `return` of an error: the sentinels
`ErrUserAlreadyExists` and `ErrInvalidCredentials`, the three `fmt.Errorf` without a
cause, and the `fmt.Errorf` that wrap a cause with `%w`. -/
inductive ServiceError
  | fieldsRequired
  | ErrUserAlreadyExists
  | failedToCheckExistingUser (cause : RepoError)
  | failedToHashPassword (cause : String)
  | failedToCreateUser (cause : RepoError)
  | identifierRequired
  | ErrInvalidCredentials
  | failedToGetUser (cause : RepoError)
  | failedToGenerateToken (cause : GenerateError)
  | tokenRequired
  | failedToRevokeToken (cause : RevokeError)
  deriving DecidableEq, Repr

/-- The method `AuthService.Register` over a repository in state `st`: the returned
pointer and error, and the repository state after the call. -/
def Register {σ : Type} (S : StdLib) (H : PasswordHasher) (userRepo : UserRepository σ)
    (st : σ) (salt : Bytes) (req : RegisterRequest) :
    Except ServiceError (Option User) × σ :=
  if req.Username = "" ∨ req.Email = "" ∨ req.Password = "" then (.error .fieldsRequired, st)
  else
    let req := { req with Username := TrimSpace req.Username }
    let req := { req with Email := ToLower S (TrimSpace req.Email) }
    match userRepo.GetByUsernameOrEmail st req.Username req.Email with
    | .error (.other text) => (.error (.failedToCheckExistingUser (.other text)), st)
    | .ok _ => (.error .ErrUserAlreadyExists, st)
    | .error .ErrUserNotFound =>
      match H.HashPassword salt req.Password with
      | .error err => (.error (.failedToHashPassword err), st)
      | .ok passwordHash =>
        let user : User :=
          { ID := 0
            Username := req.Username
            Email := req.Email
            PasswordHash := passwordHash
            FirstName := req.FirstName
            LastName := req.LastName
            CreatedAt := ""
            UpdatedAt := "" }
        match userRepo.Create st user with
        | (.error err, st') => (.error (.failedToCreateUser err), st')
        | (.ok createdUser, st') => (.ok createdUser, st')

/-- The method `AuthService.Login` at clock reading `now`. -/
def Login {σ : Type} (C : Crypto) (H : PasswordHasher) (userRepo : UserRepository σ)
    (st : σ) (tokenManager : TokenManager) (now : Time) (req : LoginRequest) :
    Except ServiceError LoginResponse :=
  if req.Identifier = "" ∨ req.Password = "" then .error .identifierRequired
  else
    let req := { req with Identifier := TrimSpace req.Identifier }
    match userRepo.GetByUsernameOrEmail st req.Identifier req.Identifier with
    | .error .ErrUserNotFound => .error .ErrInvalidCredentials
    | .error err => .error (.failedToGetUser err)
    | .ok user =>
      if !H.CheckPasswordHash req.Password user.PasswordHash then .error .ErrInvalidCredentials
      else
        match GenerateToken C tokenManager now user.ID user.Username user.Email with
        | .error err => .error (.failedToGenerateToken err)
        | .ok token => .ok { Token := token, User := user }

/-- The user a `Register` call that creates one stores in the in-memory repository. -/
def registeredUser (S : StdLib) (mur : MemoryUserRepository) (n : Nondet)
    (req : RegisterRequest) (passwordHash : String) : User :=
  { ID := wrapInt64 (mur.maxID + 1)
    Username := TrimSpace req.Username
    Email := ToLower S (TrimSpace req.Email)
    PasswordHash := passwordHash
    FirstName := req.FirstName
    LastName := req.LastName
    CreatedAt := S.formatRFC3339Nano n.now₁
    UpdatedAt := S.formatRFC3339Nano n.now₂ }

/-- One `Register` call on the in-memory repository, with what it takes from the runtime. -/
structure RegisterCall where
  nondet : Nondet
  salt : Bytes
  req : RegisterRequest

/-- The in-memory repository after a sequence of `Register` calls, successful or not. -/
def runRegisters (S : StdLib) (H : PasswordHasher) (mur : MemoryUserRepository)
    (calls : List RegisterCall) : MemoryUserRepository :=
  calls.foldl (fun mur call =>
    (Register S H (memoryRepository S call.nondet) mur call.salt call.req).2) mur

/-- A stand-in for the standard library tables: lower-casing of the basic Latin letters
(on which it agrees with `unicode.ToLower`), and the clock reading printed as a number of
nanoseconds. -/
def sampleStdLib : StdLib :=
  { toLowerRune := Char.toLower
    formatRFC3339Nano := fun t => String.mk (formatInt t) }

/-- No two entries of the store share an id, a user name or an email, and every user is
stored under its own id. -/
def StoreUnique (mur : MemoryUserRepository) : Prop :=
  (∀ entry ∈ mur.users, entry.2.ID = entry.1) ∧
    (mur.stored.map User.ID).Nodup ∧
    (mur.stored.map User.Username).Nodup ∧
    (mur.stored.map User.Email).Nodup

/-- A list of characters with no white space at either end. -/
def Trimmed (l : List Char) : Prop :=
  l.dropWhile isSpace = l ∧ l.rdropWhile isSpace = l

/-- The runtime values used when the definitions are evaluated on concrete inputs. -/
def sampleNondet : Nondet :=
  { pick := 0, now₁ := 5, now₂ := 6 }

/-- A registration request with white space around the user name and capitals in the
email. -/
def sampleRequest : RegisterRequest :=
  { Username := " alice ", Email := "Alice@X.com", Password := "pw123"
    FirstName := "Alice", LastName := "Liddell" }

/-- A stand-in for the password hasher: the digest is the salt in digits, a dollar sign
and the plaintext; verification compares what follows the digits. -/
def sampleHasher : PasswordHasher :=
  { HashPassword := fun salt password =>
      .ok (String.mk (salt.map (fun b => Nat.digitChar (b % 10)) ++ '$' :: password.data))
    CheckPasswordHash := fun password hash =>
      password != "" && hash.data.dropWhile Char.isDigit == '$' :: password.data }

/-- The in-memory store after `sampleRequest` has been registered in the empty store. -/
def sampleStore : MemoryUserRepository :=
  runRegisters sampleStdLib sampleHasher NewMemoryUserRepository
    [{ nondet := sampleNondet, salt := [1, 2], req := sampleRequest }]

/-- The user `sampleStore` holds. -/
def sampleUser : User :=
  { ID := 1, Username := "alice", Email := "alice@x.com", PasswordHash := "12$pw123"
    FirstName := "Alice", LastName := "Liddell", CreatedAt := "5", UpdatedAt := "6" }

/-- A user that carries the largest `int` as its id, which `CreateUser` takes as it is. -/
def maxIDUser : User :=
  { ID := MaxInt64, Username := "max", Email := "max@x.com", PasswordHash := "h"
    FirstName := "", LastName := "", CreatedAt := "", UpdatedAt := "" }

/-- A user that carries the smallest `int` as its id. -/
def minIDUser : User :=
  { ID := MinInt64, Username := "min", Email := "min@x.com", PasswordHash := "h"
    FirstName := "", LastName := "", CreatedAt := "", UpdatedAt := "" }

/-- A user without an id, for `CreateUser` to number. -/
def unnumberedUser : User :=
  { ID := 0, Username := "bob", Email := "bob@x.com", PasswordHash := "h"
    FirstName := "", LastName := "", CreatedAt := "", UpdatedAt := "" }

/-- The in-memory store after `CreateUser(maxIDUser)` on the empty store: its largest id
is `MaxInt64`. -/
def maxIDStore : MemoryUserRepository :=
  (NewMemoryUserRepository.CreateUser sampleStdLib sampleNondet (some maxIDUser)).2

/-- The in-memory store after `CreateUser(minIDUser)` on `maxIDStore`: it holds the largest
and the smallest id, so the wrapped sum `maxID + 1` is an id of the map. -/
def wrappedStore : MemoryUserRepository :=
  (maxIDStore.CreateUser sampleStdLib sampleNondet (some minIDUser)).2

/-- The response to a login of `sampleUser` on `sampleManager` at clock reading 7. -/
def sampleResponse : LoginResponse :=
  { Token := .encoded .HS256 (sampleManager.newClaims 7 1 "alice" "alice@x.com")
      (signatureHS256 sampleCrypto sampleManager.secret
        (sampleManager.newClaims 7 1 "alice" "alice@x.com"))
    User := sampleUser }

/-- Two registrations in which the user name of the first is the email of the second. -/
def crossedCalls : List RegisterCall :=
  [{ nondet := sampleNondet, salt := [1, 2]
     req := { Username := "bob@x.com", Email := "a@x.com", Password := "pwA"
              FirstName := "", LastName := "" } },
   { nondet := sampleNondet, salt := [3]
     req := { Username := "bob", Email := "bob@x.com", Password := "pwB"
              FirstName := "", LastName := "" } }]

/-- The second user of `crossedCalls`, as stored. -/
def crossedUser : User :=
  { ID := 2, Username := "bob", Email := "bob@x.com", PasswordHash := "3$pwB"
    FirstName := "", LastName := "", CreatedAt := "5", UpdatedAt := "6" }

/-! ## `AuthService.Logout`, error texts and the error responses of the auth handler -/

/-- The method `AuthService.Logout` at clock reading `now`: the returned error (`none` for
nil) and the token manager after the call. -/
def Logout (C : Crypto) (tokenManager : TokenManager) (now : Time) (token : TokenString) :
    Option ServiceError × TokenManager :=
  if token.isEmpty then (some .tokenRequired, tokenManager)
  else
    match RevokeToken C tokenManager now token with
    | (some err, tm) => (some (.failedToRevokeToken err), tm)
    | (none, tm) => (none, tm)

/-- The text `err.Error()` of a repository error. -/
def RepoError.Error : RepoError → String
  | .ErrUserNotFound => "user not found"
  | .other text => text

/-- The text of `fmt.Errorf("failed to sign token: %w", err)`; `jwtText` gives the text of
a library error. -/
def GenerateError.Error (jwtText : JWTError → String) : GenerateError → String
  | .failedToSign cause => "failed to sign token: " ++ jwtText cause

/-- The texts of the errors of `RevokeToken`. -/
def RevokeError.Error (jwtText : JWTError → String) : RevokeError → String
  | .failedToParse cause => "failed to parse token for revocation: " ++ jwtText cause
  | .invalidTokenClaims => "invalid token claims"

/-- The text `err.Error()` of every error the auth service returns: the verb `%w` prints
the text of the wrapped cause. -/
def ServiceError.Error (jwtText : JWTError → String) : ServiceError → String
  | .fieldsRequired => "username, email, and password are required"
  | .ErrUserAlreadyExists => "user already exists"
  | .failedToCheckExistingUser cause => "failed to check existing user: " ++ cause.Error
  | .failedToHashPassword cause => "failed to hash password: " ++ cause
  | .failedToCreateUser cause => "failed to create user: " ++ cause.Error
  | .identifierRequired => "identifier and password are required"
  | .ErrInvalidCredentials => "invalid credentials"
  | .failedToGetUser cause => "failed to get user: " ++ cause.Error
  | .failedToGenerateToken cause => "failed to generate token: " ++ cause.Error jwtText
  | .tokenRequired => "token is required"
  | .failedToRevokeToken cause => "failed to revoke token: " ++ cause.Error jwtText

/-- An HTTP response: status code and body. -/
structure HTTPResponse where
  status : Nat
  body : String
  deriving DecidableEq, Repr

/-- The call `http.Error(w, msg, code)`: the body is the message and a newline. -/
def httpError (msg : String) (code : Nat) : HTTPResponse :=
  { status := code, body := msg ++ "\n" }

/-- The error branch of `AuthHandler.Register`. -/
def AuthHandler.RegisterError (jwtText : JWTError → String) (err : ServiceError) :
    HTTPResponse :=
  if err = .ErrUserAlreadyExists then httpError "User already exists" 409
  else httpError (err.Error jwtText) 400

/-- The error branch of `AuthHandler.Login`. -/
def AuthHandler.LoginError (jwtText : JWTError → String) (err : ServiceError) : HTTPResponse :=
  if err = .ErrInvalidCredentials then httpError "Invalid credentials" 401
  else httpError (err.Error jwtText) 500

/-- The error branch of `AuthHandler.Logout`. -/
def AuthHandler.LogoutError (jwtText : JWTError → String) (err : ServiceError) :
    HTTPResponse :=
  httpError (err.Error jwtText) 500

/-- A repository out of reach: a lookup of the user name `failFor` fails with the error
text `lookupText`, every other lookup finds no user, and every create fails with
`createText`. -/
def failingRepository (failFor lookupText createText : String) : UserRepository Unit :=
  { GetByUsernameOrEmail := fun _ username _ =>
      if username = failFor then .error (.other lookupText) else .error .ErrUserNotFound
    Create := fun st _ => (.error (.other createText), st) }

/-- The failing repository used when the definitions are evaluated: lookups of "alice"
fail with "mock error", creates with "mock create error". -/
def sampleFailingRepository : UserRepository Unit :=
  failingRepository "alice" "mock error" "mock create error"

/-- Texts of the library errors, used when the definitions are evaluated. -/
def sampleJwtText : JWTError → String
  | .ErrTokenMalformed => "token is malformed"
  | .ErrTokenUnverifiable => "token is unverifiable"
  | .ErrTokenSignatureInvalid => "token signature is invalid"
  | .ErrTokenInvalidClaims _ _ => "token has invalid claims"

/-! ## `pkg/auth/password.go` -/

/-- Modelled from the spec: `pkg/auth/password.go` is not among the sources.  The spec
describes `hash` as computing a digest that embeds a fresh random salt and a fixed work
factor, and `verify` as recomputing with the salt embedded in the digest.  A
`DigestScheme` holds what that leaves open: the work factor, the salted one-way function,
and the text form of a digest, which can be read back and is never the empty string. -/
structure DigestScheme where
  cost : Nat
  kdf : Bytes → Nat → String → Bytes
  encode : Bytes → Nat → Bytes → String
  decode : String → Option (Bytes × Nat × Bytes)

/-- Modelled from the spec: the digest embeds the salt and the work factor, so that they
can be read back from its text, and the empty string is no digest. -/
def DigestScheme.Lawful (D : DigestScheme) : Prop :=
  (∀ salt cost hash, D.decode (D.encode salt cost hash) = some (salt, cost, hash)) ∧
    D.decode "" = none

/-- Modelled from the spec: `HashPassword`, with the salt it draws; it does not fail on any
input content. -/
def HashPassword (D : DigestScheme) (salt : Bytes) (password : String) :
    Except String String :=
  .ok (D.encode salt D.cost (D.kdf salt D.cost password))

/-- Modelled from the spec: `CheckPasswordHash` returns false for an empty plaintext and
for a digest that cannot be read, and otherwise recomputes with the embedded salt and work
factor and compares. -/
def CheckPasswordHash (D : DigestScheme) (password hash : String) : Bool :=
  if password = "" then false
  else
    match D.decode hash with
    | none => false
    | some (salt, cost, digest) => D.kdf salt cost password == digest

/-- Modelled from the spec: the two functions as the auth service uses them. -/
def specHasher (D : DigestScheme) : PasswordHasher :=
  { HashPassword := HashPassword D, CheckPasswordHash := CheckPasswordHash D }

/-- Unary text form of a list of numbers: each number as that many `x` and a comma, the
list closed by a dollar sign. -/
def encodeNats : List Nat → List Char
  | [] => ['$']
  | n :: ns => List.replicate n 'x' ++ ',' :: encodeNats ns

/-- Reads a list written by `encodeNats` off the front of a text; `acc` counts the `x`
read so far. -/
def decodeNats : Nat → List Char → Option (List Nat × List Char)
  | _, [] => none
  | acc, c :: cs =>
    if c = 'x' then decodeNats (acc + 1) cs
    else if c = ',' then
      match decodeNats 0 cs with
      | some (ns, rest) => some (acc :: ns, rest)
      | none => none
    else if c = '$' then (if acc = 0 then some ([], cs) else none)
    else none

/-- Reads back a digest of the sample scheme: salt, work factor and hash, and nothing
after them. -/
def sampleDecode (text : String) : Option (Bytes × Nat × Bytes) :=
  match decodeNats 0 text.data with
  | some (salt, rest₁) =>
    match decodeNats 0 rest₁ with
    | some ([cost], rest₂) =>
      match decodeNats 0 rest₂ with
      | some (hash, []) => some (salt, cost, hash)
      | _ => none
    | _ => none
  | none => none

/-- The two assignments of `CreateUser` that set the empty time stamps of a user. -/
def stampTimes (S : StdLib) (n : Nondet) (user : User) : User :=
  let user :=
    if user.CreatedAt = "" then { user with CreatedAt := S.formatRFC3339Nano n.now₁ }
    else user
  if user.UpdatedAt = "" then { user with UpdatedAt := S.formatRFC3339Nano n.now₂ }
  else user

/-- The user stored for a registration whose user name is three blanks. -/
def blankNameUser : User :=
  { ID := 1, Username := "", Email := "c@x.com", PasswordHash := "3$pwC", FirstName := ""
    LastName := "", CreatedAt := "5", UpdatedAt := "6" }

/-- A stand-in for the digest scheme: work factor 10, a "hash" that adds the work factor to
the bytes of salt and plaintext, and the unary text form. -/
def sampleDigestScheme : DigestScheme :=
  { cost := 10
    kdf := fun salt cost password =>
      (salt ++ password.data.map Char.toNat).map (fun b => b + cost)
    encode := fun salt cost hash =>
      String.mk (encodeNats salt ++ (encodeNats [cost] ++ encodeNats hash))
    decode := sampleDecode }

/-! ## Decimal formatting is injective -/

theorem digitChar_injOn : ∀ a, a < 10 → ∀ b, b < 10 → Nat.digitChar a = Nat.digitChar b → a = b := by
  decide

theorem digitChar_ne_special : ∀ a, a < 10 → Nat.digitChar a ≠ '_' ∧ Nat.digitChar a ≠ '-' := by
  decide

/-- Decimal digits, most significant first, as characters. -/
theorem toDigitsCore_eq_digits (fuel : Nat) : ∀ (n : Nat) (ds : List Char), n < fuel →
    Nat.toDigitsCore 10 fuel n ds =
      (if n = 0 then ['0'] else ((Nat.digits 10 n).map Nat.digitChar).reverse) ++ ds := by
  induction fuel with
  | zero => intro n ds h; omega
  | succ fuel ih =>
    intro n ds h
    unfold Nat.toDigitsCore
    by_cases hq : n / 10 = 0
    · have hlt : n < 10 := by omega
      simp only [hq, if_true]
      by_cases hn : n = 0
      · subst hn; simp; rfl
      · rw [Nat.digits_of_lt 10 n hn hlt, Nat.mod_eq_of_lt hlt]; simp [hn]
    · have hpos : 0 < n := by omega
      have hn : n ≠ 0 := by omega
      simp only [hq, if_false]
      rw [ih (n / 10) _ (by omega)]
      rw [Nat.digits_def' (by norm_num) hpos]
      simp [hq, hn]

theorem formatNat_eq (n : Nat) :
    formatNat n = if n = 0 then ['0'] else ((Nat.digits 10 n).map Nat.digitChar).reverse := by
  unfold formatNat Nat.toDigits
  rw [toDigitsCore_eq_digits (n + 1) n [] (by omega)]
  simp

theorem formatNat_eq_decimalDigits (n : Nat) :
    formatNat n = ((decimalDigits n).map Nat.digitChar).reverse := by
  rw [formatNat_eq]
  unfold decimalDigits
  split <;> simp
  rfl

theorem decimalDigits_lt (n d : Nat) (h : d ∈ decimalDigits n) : d < 10 := by
  unfold decimalDigits at h
  split at h
  · simp at h; omega
  · exact Nat.digits_lt_base (by norm_num) h

theorem decimalDigits_injective (n m : Nat) (h : decimalDigits n = decimalDigits m) : n = m := by
  unfold decimalDigits at h
  by_cases hn : n = 0 <;> by_cases hm : m = 0
  · omega
  · simp only [hn, hm, if_true, if_false] at h
    have hl := Nat.getLast_digit_ne_zero 10 hm
    simp [← h] at hl
  · simp only [hn, hm, if_true, if_false] at h
    have hl := Nat.getLast_digit_ne_zero 10 hn
    simp [h] at hl
  · simp only [hn, hm, if_false] at h
    exact Nat.digits_inj_iff.mp h

theorem map_digitChar_injective : ∀ (l₁ l₂ : List Nat), (∀ d ∈ l₁, d < 10) → (∀ d ∈ l₂, d < 10) →
    l₁.map Nat.digitChar = l₂.map Nat.digitChar → l₁ = l₂
  | [], [], _, _, _ => rfl
  | [], _ :: _, _, _, h => by simp at h
  | _ :: _, [], _, _, h => by simp at h
  | a :: l₁, b :: l₂, h₁, h₂, h => by
    simp only [List.map_cons, List.cons.injEq] at h
    have hab := digitChar_injOn a (h₁ a (by simp)) b (h₂ b (by simp)) h.1
    have ht := map_digitChar_injective l₁ l₂ (fun d hd => h₁ d (by simp [hd]))
      (fun d hd => h₂ d (by simp [hd])) h.2
    rw [hab, ht]

theorem formatNat_injective (n m : Nat) (h : formatNat n = formatNat m) : n = m := by
  rw [formatNat_eq_decimalDigits, formatNat_eq_decimalDigits] at h
  have h' := List.reverse_injective h
  exact decimalDigits_injective n m
    (map_digitChar_injective _ _ (decimalDigits_lt n) (decimalDigits_lt m) h')

theorem formatNat_chars (n : Nat) (c : Char) (h : c ∈ formatNat n) : c ≠ '_' ∧ c ≠ '-' := by
  rw [formatNat_eq_decimalDigits] at h
  simp only [List.mem_reverse, List.mem_map] at h
  obtain ⟨d, hd, rfl⟩ := h
  exact digitChar_ne_special d (decimalDigits_lt n d hd)

theorem formatNat_ne_nil (n : Nat) : formatNat n ≠ [] := by
  rw [formatNat_eq_decimalDigits]
  unfold decimalDigits
  split
  · simp
  · rename_i hn
    simp [Nat.digits_ne_nil_iff_ne_zero.mpr hn]

theorem formatInt_injective (a b : Int) (h : formatInt a = formatInt b) : a = b := by
  cases a with
  | ofNat n =>
    cases b with
    | ofNat m => simp only [formatInt] at h; rw [formatNat_injective n m h]
    | negSucc m =>
      simp only [formatInt] at h
      have hmem : '-' ∈ formatNat n := by rw [h]; simp
      exact absurd rfl (formatNat_chars n _ hmem).2
  | negSucc n =>
    cases b with
    | ofNat m =>
      simp only [formatInt] at h
      have hmem : '-' ∈ formatNat m := by rw [← h]; simp
      exact absurd rfl (formatNat_chars m _ hmem).2
    | negSucc m =>
      simp only [formatInt, List.cons.injEq, true_and] at h
      have := formatNat_injective _ _ h
      congr 1
      omega

theorem formatInt_no_underscore (a : Int) : '_' ∉ formatInt a := by
  intro h
  cases a with
  | ofNat n => exact absurd rfl (formatNat_chars n _ h).1
  | negSucc n =>
    simp only [formatInt, List.mem_cons] at h
    rcases h with h | h
    · exact absurd h (by decide)
    · exact absurd rfl (formatNat_chars _ _ h).1

theorem append_cons_split (c : Char) : ∀ (l₁ l₂ r₁ r₂ : List Char), c ∉ l₁ → c ∉ l₂ →
    l₁ ++ c :: r₁ = l₂ ++ c :: r₂ → l₁ = l₂ ∧ r₁ = r₂
  | [], [], _, _, _, _, h => by simpa using h
  | [], b :: l₂, _, _, _, h₂, h => by
    simp only [List.nil_append, List.cons_append, List.cons.injEq] at h
    exact absurd (by simp [h.1]) h₂
  | a :: l₁, [], _, _, h₁, _, h => by
    simp only [List.nil_append, List.cons_append, List.cons.injEq] at h
    exact absurd (by simp [h.1]) h₁
  | a :: l₁, b :: l₂, r₁, r₂, h₁, h₂, h => by
    simp only [List.cons_append, List.cons.injEq] at h
    have ih := append_cons_split c l₁ l₂ r₁ r₂ (fun hc => h₁ (by simp [hc]))
      (fun hc => h₂ (by simp [hc])) h.2
    simp [h.1, ih.1, ih.2]

/-- The format `%d_%d` determines both of its arguments. -/
theorem sprintfIdPair_injective (a b a' b' : Int)
    (h : sprintfIdPair a b = sprintfIdPair a' b') : a = a' ∧ b = b' := by
  unfold sprintfIdPair at h
  have hl : formatInt a ++ '_' :: formatInt b = formatInt a' ++ '_' :: formatInt b' :=
    congrArg String.data h
  have hs := append_cons_split '_' _ _ _ _ (formatInt_no_underscore a)
    (formatInt_no_underscore a') hl
  exact ⟨formatInt_injective _ _ hs.1, formatInt_injective _ _ hs.2⟩

/-! ## Lemmas on the library model -/

theorem Second_pos : (0 : Int) < Second := by decide

theorem NewNumericDate_le (t : Time) : NewNumericDate t ≤ t := by
  unfold NewNumericDate
  exact Int.sub_le_self t (Int.emod_nonneg t (ne_of_gt Second_pos))

theorem Verify_isHMAC (C : Crypto) (m : SigningMethod) (msg sig key : Bytes)
    (h : m.Verify C msg sig key = true) : m.isHMAC = true := by
  unfold SigningMethod.Verify at h
  simp only [Bool.and_eq_true] at h
  exact h.1

theorem Verify_signatureHS256 (C : Crypto) (secret : Bytes) (claims : Claims) :
    SigningMethod.HS256.Verify C (C.signingString .HS256 claims)
      (signatureHS256 C secret claims) secret = true := by
  simp [SigningMethod.Verify, SigningMethod.isHMAC, signatureHS256]

theorem GenerateToken_eq (C : Crypto) (tm : TokenManager) (now : Time) (userID : Int)
    (username email : String) :
    GenerateToken C tm now userID username email =
      .ok (.encoded .HS256 (tm.newClaims now userID username email)
        (signatureHS256 C tm.secret (tm.newClaims now userID username email))) := by
  simp [GenerateToken, SignedString, SigningMethod.Sign, SigningMethod.isHMAC, signatureHS256]

/-- Parsing a token whose signature verifies under the manager's secret comes down to the
validation of its claims. -/
theorem ParseWithClaims_verified (C : Crypto) (tm : TokenManager) (now : Time)
    (m : SigningMethod) (c : Claims) (s : Bytes)
    (hv : m.Verify C (C.signingString m c) s tm.secret = true) :
    ParseWithClaims C now (.encoded m c s) tm.keyFunc =
      if verifyExpiresAt c now && verifyNotBefore c now then
        .ok { Method := m, Claims := c, Signature := s, Valid := true }
      else .error (.ErrTokenInvalidClaims (!verifyExpiresAt c now) (!verifyNotBefore c now)) := by
  have hm := Verify_isHMAC C m _ _ _ hv
  simp only [ParseWithClaims, TokenManager.keyFunc, hm, if_true, hv, Validate]
  by_cases h : (verifyExpiresAt c now && verifyNotBefore c now) = true <;> simp [h]

/-- Parsing fails, with an error that is not an expiry, on every token string that is
malformed, names a method outside the HMAC family, or carries a signature that does not
verify under the manager's secret. -/
theorem ParseWithClaims_rejected (C : Crypto) (tm : TokenManager) (now : Time)
    (tok : TokenString)
    (h : (∃ raw, tok = .malformed raw) ∨
      ∃ m c s, tok = .encoded m c s ∧
        (m.isHMAC = false ∨ m.Verify C (C.signingString m c) s tm.secret = false)) :
    ∃ err, ParseWithClaims C now tok tm.keyFunc = .error err ∧ err.isErrTokenExpired = false := by
  rcases h with ⟨raw, rfl⟩ | ⟨m, c, s, rfl, hm | hv⟩
  · exact ⟨_, rfl, rfl⟩
  · exact ⟨.ErrTokenUnverifiable, by simp [ParseWithClaims, TokenManager.keyFunc, hm], rfl⟩
  · by_cases hm : m.isHMAC = true
    · exact ⟨.ErrTokenSignatureInvalid,
        by simp [ParseWithClaims, TokenManager.keyFunc, hm, hv], rfl⟩
    · exact ⟨.ErrTokenUnverifiable, by simp [ParseWithClaims, TokenManager.keyFunc, hm], rfl⟩

/-- The result of `ValidateToken` on a token whose signature verifies: expiry first, then
the not-before check, then the revocation set. -/
theorem ValidateToken_verified (C : Crypto) (tm : TokenManager) (now : Time)
    (m : SigningMethod) (c : Claims) (s : Bytes)
    (hv : m.Verify C (C.signingString m c) s tm.secret = true) :
    ValidateToken C tm now (.encoded m c s) =
      if verifyExpiresAt c now = false then .error .ErrExpiredToken
      else if verifyNotBefore c now = false then .error .ErrInvalidToken
      else if c.ID ∈ tm.revokedJTIs then .error .ErrInvalidToken
      else .ok c := by
  unfold ValidateToken
  rw [ParseWithClaims_verified C tm now m c s hv]
  cases he : verifyExpiresAt c now <;> cases hn : verifyNotBefore c now <;>
    simp [JWTError.isErrTokenExpired]

/-- The result of `RevokeToken` on a token whose signature verifies. -/
theorem RevokeToken_verified (C : Crypto) (tm : TokenManager) (now : Time)
    (m : SigningMethod) (c : Claims) (s : Bytes)
    (hv : m.Verify C (C.signingString m c) s tm.secret = true) :
    RevokeToken C tm now (.encoded m c s) =
      if verifyExpiresAt c now && verifyNotBefore c now then
        (none, { tm with revokedJTIs := insert c.ID tm.revokedJTIs })
      else (some (.failedToParse
        (.ErrTokenInvalidClaims (!verifyExpiresAt c now) (!verifyNotBefore c now))), tm) := by
  unfold RevokeToken
  rw [ParseWithClaims_verified C tm now m c s hv]
  by_cases h : (verifyExpiresAt c now && verifyNotBefore c now) = true <;> simp [h]

/-- The claims of an issued token pass the not-before check from the issuing instant on. -/
theorem newClaims_notBefore (tm : TokenManager) (issued now : Time) (userID : Int)
    (username email : String) (h : issued ≤ now) :
    verifyNotBefore (tm.newClaims issued userID username email) now = true := by
  have hle : NewNumericDate issued ≤ now := le_trans (NewNumericDate_le issued) h
  simp only [verifyNotBefore, TokenManager.newClaims, Bool.not_eq_true', decide_eq_false_iff_not]
  exact not_lt.mpr hle

theorem newClaims_expiresAt (tm : TokenManager) (issued now : Time) (userID : Int)
    (username email : String) :
    verifyExpiresAt (tm.newClaims issued userID username email) now =
      decide (now < NewNumericDate (issued + tm.expiryTime)) := by
  simp [verifyExpiresAt, TokenManager.newClaims]

/-! ## Claims about the token manager -/

set_option maxRecDepth 100000

/-- C1. Round trip: a token returned by `GenerateToken(userID, username, email)`, for every
secret and expiry, handed to `ValidateToken` on the same manager at a clock reading from the
issuing instant up to (not including) the token's expiry time, with its token id not in the
revocation set, is accepted, and the returned claims carry the same `UserID`, `Username`
and `Email`. -/
theorem C1_generate_validate_roundtrip (C : Crypto) (tm : TokenManager) (issued now : Time)
    (userID : Int) (username email : String)
    (hafter : issued ≤ now)
    (hbefore : now < NewNumericDate (issued + tm.expiryTime))
    (hnotRevoked : sprintfIdPair userID issued ∉ tm.revokedJTIs) :
    ∃ tok claims, GenerateToken C tm issued userID username email = .ok tok ∧
      ValidateToken C tm now tok = .ok claims ∧
      claims.UserID = userID ∧ claims.Username = username ∧ claims.Email = email := by
  refine ⟨_, tm.newClaims issued userID username email, GenerateToken_eq _ _ _ _ _ _, ?_,
    rfl, rfl, rfl⟩
  rw [ValidateToken_verified C tm now _ _ _ (Verify_signatureHS256 C tm.secret _)]
  rw [newClaims_expiresAt, newClaims_notBefore tm issued now userID username email hafter]
  have hid : (tm.newClaims issued userID username email).ID = sprintfIdPair userID issued := rfl
  simp [hbefore, hid, hnotRevoked]

/-- C1, at a concrete input: a token issued at 1.5 s and validated at 1.6 s. -/
theorem C1_witness :
    ((1500000000 : Time) ≤ 1600000000 ∧
      (1600000000 : Time) < NewNumericDate (1500000000 + sampleManager.expiryTime) ∧
      sprintfIdPair 1 1500000000 ∉ sampleManager.revokedJTIs) ∧
    ∃ tok claims,
      GenerateToken sampleCrypto sampleManager 1500000000 1 "alice" "alice@x.com" = .ok tok ∧
      ValidateToken sampleCrypto sampleManager 1600000000 tok = .ok claims ∧
      claims.UserID = 1 ∧ claims.Username = "alice" ∧ claims.Email = "alice@x.com" :=
  ⟨by decide, C1_generate_validate_roundtrip sampleCrypto sampleManager 1500000000 1600000000 1
    "alice" "alice@x.com" (by decide) (by decide) (by decide)⟩

/-- A token string that does not parse, or does not verify, is refused by `RevokeToken`,
which then leaves the manager as it was. -/
theorem RevokeToken_rejected (C : Crypto) (tm : TokenManager) (now : Time) (tok : TokenString)
    (h : (∃ raw, tok = .malformed raw) ∨
      ∃ m c s, tok = .encoded m c s ∧
        (m.isHMAC = false ∨ m.Verify C (C.signingString m c) s tm.secret = false)) :
    ∃ err, RevokeToken C tm now tok = (some (.failedToParse err), tm) := by
  obtain ⟨err, herr, _⟩ := ParseWithClaims_rejected C tm now tok h
  exact ⟨err, by simp [RevokeToken, herr]⟩

theorem RevokeToken_secret (C : Crypto) (tm : TokenManager) (now : Time) (tok : TokenString) :
    (RevokeToken C tm now tok).2.secret = tm.secret := by
  unfold RevokeToken
  split <;> rfl

theorem RevokeToken_revoked_mono (C : Crypto) (tm : TokenManager) (now : Time)
    (tok : TokenString) : tm.revokedJTIs ⊆ (RevokeToken C tm now tok).2.revokedJTIs := by
  unfold RevokeToken
  split
  · exact Finset.Subset.refl _
  · exact Finset.subset_insert _ _

theorem runCalls_secret (C : Crypto) (calls : List Call) :
    ∀ tm : TokenManager, (runCalls C tm calls).secret = tm.secret := by
  induction calls with
  | nil => intro tm; rfl
  | cons call calls ih =>
    intro tm
    show (runCalls C (Call.apply C tm call) calls).secret = tm.secret
    rw [ih]
    cases call <;> first | rfl | exact RevokeToken_secret C tm _ _

theorem runCalls_revoked_mono (C : Crypto) (calls : List Call) :
    ∀ tm : TokenManager, tm.revokedJTIs ⊆ (runCalls C tm calls).revokedJTIs := by
  induction calls with
  | nil => intro tm; exact Finset.Subset.refl _
  | cons call calls ih =>
    intro tm
    show tm.revokedJTIs ⊆ (runCalls C (Call.apply C tm call) calls).revokedJTIs
    refine Finset.Subset.trans ?_ (ih _)
    cases call
    · exact Finset.Subset.refl _
    · exact Finset.Subset.refl _
    · exact RevokeToken_revoked_mono C tm _ _

/-- C2 (amended). Revocation sticks: after `RevokeToken(token)` has succeeded on a manager,
every later `ValidateToken(token)` on that manager, at any clock reading and after any
intervening `GenerateToken`, `ValidateToken` or `RevokeToken` calls, fails: with
`ErrInvalidToken` as long as the token has not expired at that reading, and with
`ErrExpiredToken` once it has. -/
theorem C2_revoked_token_rejected (C : Crypto) (tm : TokenManager) (t : Time)
    (tok : TokenString) (hrevoked : (RevokeToken C tm t tok).1 = none)
    (calls : List Call) (now : Time) :
    ValidateToken C (runCalls C (RevokeToken C tm t tok).2 calls) now tok =
      .error (if tok.expiredAt now then .ErrExpiredToken else .ErrInvalidToken) := by
  cases tok with
  | malformed raw => simp [RevokeToken, ParseWithClaims] at hrevoked
  | encoded m c s =>
    by_cases hv : m.Verify C (C.signingString m c) s tm.secret = true
    · have hmem : c.ID ∈ (runCalls C (RevokeToken C tm t (.encoded m c s)).2 calls).revokedJTIs := by
        apply runCalls_revoked_mono
        rw [RevokeToken_verified C tm t m c s hv] at hrevoked ⊢
        by_cases hvalid : (verifyExpiresAt c t && verifyNotBefore c t) = true
        · simp [hvalid]
        · simp [hvalid] at hrevoked
      have hv' : m.Verify C (C.signingString m c) s
          (runCalls C (RevokeToken C tm t (.encoded m c s)).2 calls).secret = true := by
        rw [runCalls_secret, RevokeToken_secret]; exact hv
      rw [ValidateToken_verified C _ now m c s hv']
      cases he : verifyExpiresAt c now <;> cases hn : verifyNotBefore c now <;>
        simp [TokenString.expiredAt, he, hmem]
    · obtain ⟨err, herr⟩ := RevokeToken_rejected C tm t (.encoded m c s)
        (Or.inr ⟨m, c, s, rfl, Or.inr (by simpa using hv)⟩)
      rw [herr] at hrevoked
      simp at hrevoked

/-- C2 as stated fails: the token issued at 0 with one hour of expiry is revoked at 1 s;
`ValidateToken` two hours after issue returns `ErrExpiredToken`, not `ErrInvalidToken`. -/
theorem C2_counterexample :
    GenerateToken sampleCrypto sampleManager 0 1 "alice" "alice@x.com" = .ok sampleToken ∧
    (RevokeToken sampleCrypto sampleManager Second sampleToken).1 = none ∧
    ValidateToken sampleCrypto (RevokeToken sampleCrypto sampleManager Second sampleToken).2
      (7200 * Second) sampleToken = .error .ErrExpiredToken := by
  decide

/-- C2 (amended), at a concrete input: revoked at 1 s, validated at 4 s after two other
calls. -/
theorem C2_witness :
    (RevokeToken sampleCrypto sampleManager Second sampleToken).1 = none ∧
    ValidateToken sampleCrypto
      (runCalls sampleCrypto (RevokeToken sampleCrypto sampleManager Second sampleToken).2
        [.GenerateToken (2 * Second) 2 "bob" "bob@x.com",
          .RevokeToken (3 * Second) (.malformed "x")])
      (4 * Second) sampleToken =
      .error (if sampleToken.expiredAt (4 * Second) then .ErrExpiredToken
        else .ErrInvalidToken) :=
  ⟨by decide,
    C2_revoked_token_rejected sampleCrypto sampleManager Second sampleToken (by decide) _ _⟩

/-- C3 (amended). For every token issued by the manager, `RevokeToken(token)` at a clock
reading from the issuing instant on returns no error while the token's expiry time has not
been reached; once it has been reached `RevokeToken` returns an error (the parse error
for expired claims) and leaves the manager as it was. -/
theorem C3_revoke_issued_token (C : Crypto) (tm : TokenManager) (issued now : Time)
    (userID : Int) (username email : String) (hafter : issued ≤ now) :
    ∃ tok, GenerateToken C tm issued userID username email = .ok tok ∧
      (now < NewNumericDate (issued + tm.expiryTime) → (RevokeToken C tm now tok).1 = none) ∧
      (NewNumericDate (issued + tm.expiryTime) ≤ now →
        RevokeToken C tm now tok =
          (some (.failedToParse (.ErrTokenInvalidClaims true false)), tm)) := by
  refine ⟨_, GenerateToken_eq _ _ _ _ _ _, ?_, ?_⟩
  · intro hbefore
    rw [RevokeToken_verified C tm now _ _ _ (Verify_signatureHS256 C tm.secret _),
      newClaims_expiresAt, newClaims_notBefore tm issued now userID username email hafter]
    simp [hbefore]
  · intro hexpired
    rw [RevokeToken_verified C tm now _ _ _ (Verify_signatureHS256 C tm.secret _),
      newClaims_expiresAt, newClaims_notBefore tm issued now userID username email hafter]
    simp [not_lt.mpr hexpired]

/-- C3 as stated fails: the token issued at 0 with one hour of expiry cannot be revoked two
hours after issue; `RevokeToken` returns the parse error for expired claims. -/
theorem C3_counterexample :
    GenerateToken sampleCrypto sampleManager 0 1 "alice" "alice@x.com" = .ok sampleToken ∧
    (RevokeToken sampleCrypto sampleManager (7200 * Second) sampleToken).1 =
      some (.failedToParse (.ErrTokenInvalidClaims true false)) := by
  decide

/-- C3 (amended), at a concrete input: revocation one second after issue. -/
theorem C3_witness :
    (0 : Time) ≤ Second ∧
    ∃ tok, GenerateToken sampleCrypto sampleManager 0 1 "alice" "alice@x.com" = .ok tok ∧
      (Second < NewNumericDate (0 + sampleManager.expiryTime) →
        (RevokeToken sampleCrypto sampleManager Second tok).1 = none) ∧
      (NewNumericDate (0 + sampleManager.expiryTime) ≤ Second →
        RevokeToken sampleCrypto sampleManager Second tok =
          (some (.failedToParse (.ErrTokenInvalidClaims true false)), sampleManager)) :=
  ⟨by decide,
    C3_revoke_issued_token sampleCrypto sampleManager 0 Second 1 "alice" "alice@x.com"
      (by decide)⟩

/-- C4. Expiry: a token issued by a manager with expiry `d` at clock reading `issued`,
revoked or not, is refused by `ValidateToken` with `ErrExpiredToken` (and no claims) at
every clock reading strictly later than `issued + d`. -/
theorem C4_expired_token (C : Crypto) (tm : TokenManager) (issued now : Time)
    (userID : Int) (username email : String) (hlate : issued + tm.expiryTime < now) :
    ∃ tok, GenerateToken C tm issued userID username email = .ok tok ∧
      ValidateToken C tm now tok = .error .ErrExpiredToken := by
  refine ⟨_, GenerateToken_eq _ _ _ _ _ _, ?_⟩
  have hexp : ¬ now < NewNumericDate (issued + tm.expiryTime) :=
    not_lt.mpr (le_trans (NewNumericDate_le _) (le_of_lt hlate))
  rw [ValidateToken_verified C tm now _ _ _ (Verify_signatureHS256 C tm.secret _),
    newClaims_expiresAt]
  simp [hexp]

/-- C4, at a concrete input: expiry one millisecond, validation ten milliseconds later. -/
theorem C4_witness :
    (0 + (NewTokenManager [115] 1000000).expiryTime < (10000000 : Time)) ∧
    ∃ tok, GenerateToken sampleCrypto (NewTokenManager [115] 1000000) 0 1 "alice"
        "alice@x.com" = .ok tok ∧
      ValidateToken sampleCrypto (NewTokenManager [115] 1000000) 10000000 tok =
        .error .ErrExpiredToken :=
  ⟨by decide,
    C4_expired_token sampleCrypto (NewTokenManager [115] 1000000) 0 10000000 1 "alice"
      "alice@x.com" (by decide)⟩

/-- C5. Expiry takes precedence over revocation: a well-formed token whose signature
verifies under the manager's secret and whose expiry time lies before `now` is refused
with `ErrExpiredToken` whatever the revocation set holds, its own id included or not. -/
theorem C5_expiry_before_revocation (C : Crypto) (tm : TokenManager) (now : Time)
    (m : SigningMethod) (c : Claims) (s : Bytes) (expiresAt : Time)
    (hsigned : m.Verify C (C.signingString m c) s tm.secret = true)
    (hexp : c.ExpiresAt = some expiresAt) (hnow : expiresAt < now) :
    ∀ revoked : Finset String,
      ValidateToken C { tm with revokedJTIs := revoked } now (.encoded m c s) =
        .error .ErrExpiredToken := by
  intro revoked
  rw [ValidateToken_verified C { tm with revokedJTIs := revoked } now m c s hsigned]
  have : verifyExpiresAt c now = false := by
    simp [verifyExpiresAt, hexp, not_lt.mpr (le_of_lt hnow)]
  simp [this]

/-- C5, at a concrete input: the sample token, two hours after issue, its id revoked. -/
theorem C5_witness :
    (SigningMethod.HS256.Verify sampleCrypto
        (sampleCrypto.signingString .HS256 (sampleManager.newClaims 0 1 "alice" "alice@x.com"))
        (signatureHS256 sampleCrypto sampleManager.secret
          (sampleManager.newClaims 0 1 "alice" "alice@x.com")) sampleManager.secret = true ∧
      (sampleManager.newClaims 0 1 "alice" "alice@x.com").ExpiresAt = some (3600 * Second) ∧
      3600 * Second < 7200 * Second) ∧
    ValidateToken sampleCrypto { sampleManager with revokedJTIs := {"1_0"} } (7200 * Second)
      sampleToken = .error .ErrExpiredToken :=
  ⟨by decide,
    C5_expiry_before_revocation sampleCrypto sampleManager (7200 * Second) .HS256
      (sampleManager.newClaims 0 1 "alice" "alice@x.com")
      (signatureHS256 sampleCrypto sampleManager.secret
        (sampleManager.newClaims 0 1 "alice" "alice@x.com"))
      (3600 * Second) (by decide) (by decide) (by decide) {"1_0"}⟩

/-- A secret shorter than the hash block and the same secret followed by a zero byte are
the same HMAC key, whatever the hash function. -/
theorem hmacSum_trailing_zero (hash : Bytes → Bytes) (blockSize : Nat) (key msg : Bytes)
    (h : key.length < blockSize) :
    hmacSum hash blockSize (key ++ [0]) msg = hmacSum hash blockSize key msg := by
  have hk : hmacKeyBlock hash blockSize (key ++ [0]) = hmacKeyBlock hash blockSize key := by
    unfold hmacKeyBlock
    have h1 : ¬ (key ++ [0]).length > blockSize := by simp; omega
    have h2 : ¬ key.length > blockSize := by omega
    simp only [h1, h2, if_false]
    have hz : ([0] : Bytes) = List.replicate 1 0 := rfl
    rw [List.append_assoc, hz, List.append_replicate_replicate,
      List.take_append_eq_append_take, List.take_append_eq_append_take,
      List.take_replicate, List.take_replicate,
      Nat.min_eq_left (by omega : blockSize - key.length ≤ 1 + blockSize),
      Nat.min_eq_left (by omega : blockSize - key.length ≤ blockSize)]
  unfold hmacSum
  rw [hk]

/-- A secret longer than the hash block and its hash (which fits the block) are the same
HMAC key, whatever the hash function. -/
theorem hmacSum_long_key (hash : Bytes → Bytes) (blockSize : Nat) (key msg : Bytes)
    (hlong : blockSize < key.length) (hfit : (hash key).length ≤ blockSize) :
    hmacSum hash blockSize key msg = hmacSum hash blockSize (hash key) msg := by
  have hk : hmacKeyBlock hash blockSize key = hmacKeyBlock hash blockSize (hash key) := by
    unfold hmacKeyBlock
    have h1 : key.length > blockSize := hlong
    have h2 : ¬ (hash key).length > blockSize := by omega
    simp only [h1, h2, if_true, if_false]
  unfold hmacSum
  rw [hk]

/-- Whatever the hash function, a manager whose secret is another manager's secret (shorter
than the 64-byte block) followed by a zero byte accepts the other manager's tokens. -/
theorem ValidateToken_trailing_zero_secret (C : Crypto) (tm₁ tm₂ : TokenManager)
    (issued now : Time) (userID : Int) (username email : String)
    (hshort : tm₁.secret.length < 64) (hsecret : tm₂.secret = tm₁.secret ++ [0])
    (hafter : issued ≤ now) (hbefore : now < NewNumericDate (issued + tm₁.expiryTime))
    (hnotRevoked : sprintfIdPair userID issued ∉ tm₂.revokedJTIs) :
    ∃ tok, GenerateToken C tm₁ issued userID username email = .ok tok ∧
      ValidateToken C tm₂ now tok = .ok (tm₁.newClaims issued userID username email) := by
  refine ⟨_, GenerateToken_eq _ _ _ _ _ _, ?_⟩
  have hv : SigningMethod.HS256.Verify C
      (C.signingString .HS256 (tm₁.newClaims issued userID username email))
      (signatureHS256 C tm₁.secret (tm₁.newClaims issued userID username email))
      tm₂.secret = true := by
    simp only [SigningMethod.Verify, SigningMethod.isHMAC, Bool.true_and, decide_eq_true_eq,
      signatureHS256, hsecret]
    exact (hmacSum_trailing_zero _ _ _ _ hshort).symm
  rw [ValidateToken_verified C tm₂ now _ _ _ hv, newClaims_expiresAt,
    newClaims_notBefore tm₁ issued now userID username email hafter]
  have hid : (tm₁.newClaims issued userID username email).ID = sprintfIdPair userID issued := rfl
  simp [hbefore, hid, hnotRevoked]

/-- C6 (amended). Secret isolation: for every two managers whose secrets give different
HS256 signatures of the token's claims, the token issued by the first manager is refused
by the second manager's `ValidateToken` with `ErrInvalidToken`, at every clock reading. -/
theorem C6_secret_isolation (C : Crypto) (tm₁ tm₂ : TokenManager) (issued now : Time)
    (userID : Int) (username email : String)
    (hdiff : signatureHS256 C tm₁.secret (tm₁.newClaims issued userID username email) ≠
      signatureHS256 C tm₂.secret (tm₁.newClaims issued userID username email)) :
    ∃ tok, GenerateToken C tm₁ issued userID username email = .ok tok ∧
      ValidateToken C tm₂ now tok = .error .ErrInvalidToken := by
  refine ⟨_, GenerateToken_eq _ _ _ _ _ _, ?_⟩
  obtain ⟨err, herr, hne⟩ := ParseWithClaims_rejected C tm₂ now
    (.encoded .HS256 (tm₁.newClaims issued userID username email)
      (signatureHS256 C tm₁.secret (tm₁.newClaims issued userID username email)))
    (Or.inr ⟨_, _, _, rfl, Or.inr (by
      simp only [SigningMethod.Verify, SigningMethod.isHMAC, Bool.true_and,
        decide_eq_false_iff_not]
      exact hdiff)⟩)
  simp [ValidateToken, herr, hne]

/-- C6 as stated fails: the secrets "s" and "s\x00" differ, and the token issued under the
first is accepted by a manager configured with the second. -/
theorem C6_counterexample :
    ([115] : Bytes) ≠ [115, 0] ∧
    ∃ tok claims,
      GenerateToken sampleCrypto (NewTokenManager [115] (3600 * Second)) 0 1 "alice"
        "alice@x.com" = .ok tok ∧
      ValidateToken sampleCrypto (NewTokenManager [115, 0] (3600 * Second)) Second tok =
        .ok claims ∧
      claims.UserID = 1 :=
  ⟨by decide, _, (NewTokenManager [115] (3600 * Second)).newClaims 0 1 "alice" "alice@x.com",
    GenerateToken_eq _ _ _ _ _ _, by decide, rfl⟩

/-- C6 (amended), at a concrete input: the secrets "s" and "t". -/
theorem C6_witness :
    signatureHS256 sampleCrypto (NewTokenManager [115] (3600 * Second)).secret
        ((NewTokenManager [115] (3600 * Second)).newClaims 0 1 "alice" "alice@x.com") ≠
      signatureHS256 sampleCrypto (NewTokenManager [116] (3600 * Second)).secret
        ((NewTokenManager [115] (3600 * Second)).newClaims 0 1 "alice" "alice@x.com") ∧
    ∃ tok, GenerateToken sampleCrypto (NewTokenManager [115] (3600 * Second)) 0 1 "alice"
        "alice@x.com" = .ok tok ∧
      ValidateToken sampleCrypto (NewTokenManager [116] (3600 * Second)) Second tok =
        .error .ErrInvalidToken :=
  ⟨by decide,
    C6_secret_isolation sampleCrypto (NewTokenManager [115] (3600 * Second))
      (NewTokenManager [116] (3600 * Second)) 0 Second 1 "alice" "alice@x.com" (by decide)⟩

/-- C7. Every token string that is malformed, or whose header names an algorithm outside
the HMAC family, or whose signature does not verify under the manager's secret, is refused
by `ValidateToken` with `ErrInvalidToken` at every clock reading, hence also when the
expiry time in its payload lies in the past. -/
theorem C7_invalid_token (C : Crypto) (tm : TokenManager) (now : Time) (tok : TokenString)
    (h : (∃ raw, tok = .malformed raw) ∨
      ∃ m c s, tok = .encoded m c s ∧
        (m.isHMAC = false ∨ m.Verify C (C.signingString m c) s tm.secret = false)) :
    ValidateToken C tm now tok = .error .ErrInvalidToken := by
  obtain ⟨err, herr, hne⟩ := ParseWithClaims_rejected C tm now tok h
  simp [ValidateToken, herr, hne]

/-- C7, at a concrete input: the claims of the sample token under a forged signature, two
hours after issue. -/
theorem C7_witness :
    ((∃ raw, TokenString.encoded .HS256 (sampleManager.newClaims 0 1 "alice" "alice@x.com")
          [0, 0] = .malformed raw) ∨
      ∃ m c s, TokenString.encoded .HS256 (sampleManager.newClaims 0 1 "alice" "alice@x.com")
          [0, 0] = .encoded m c s ∧
        (m.isHMAC = false ∨
          m.Verify sampleCrypto (sampleCrypto.signingString m c) s sampleManager.secret =
            false)) ∧
    ValidateToken sampleCrypto sampleManager (7200 * Second)
      (.encoded .HS256 (sampleManager.newClaims 0 1 "alice" "alice@x.com") [0, 0]) =
      .error .ErrInvalidToken :=
  ⟨Or.inr ⟨_, _, _, rfl, Or.inr (by decide)⟩,
    C7_invalid_token sampleCrypto sampleManager (7200 * Second) _
      (Or.inr ⟨_, _, _, rfl, Or.inr (by decide)⟩)⟩

/-- C8 (amended). Token ids: two calls to `GenerateToken` on a manager that are made for
different user ids, or that read different clock values, produce tokens whose token ids
differ. -/
theorem C8_distinct_token_ids (C : Crypto) (tm : TokenManager) (now₁ now₂ : Time)
    (userID₁ userID₂ : Int) (username₁ email₁ username₂ email₂ : String)
    (hdiff : userID₁ ≠ userID₂ ∨ now₁ ≠ now₂) :
    ∃ tok₁ tok₂ id₁ id₂,
      GenerateToken C tm now₁ userID₁ username₁ email₁ = .ok tok₁ ∧
      GenerateToken C tm now₂ userID₂ username₂ email₂ = .ok tok₂ ∧
      tok₁.jti = some id₁ ∧ tok₂.jti = some id₂ ∧ id₁ ≠ id₂ := by
  refine ⟨_, _, sprintfIdPair userID₁ now₁, sprintfIdPair userID₂ now₂,
    GenerateToken_eq _ _ _ _ _ _, GenerateToken_eq _ _ _ _ _ _, rfl, rfl, ?_⟩
  intro heq
  have := sprintfIdPair_injective _ _ _ _ heq
  rcases hdiff with h | h
  · exact h this.1
  · exact h this.2

/-- C8 as stated fails: two calls for user 1 that read the same clock value 5 produce
tokens with the same token id "1_5". -/
theorem C8_counterexample :
    ∃ tok₁ tok₂,
      GenerateToken sampleCrypto sampleManager 5 1 "alice" "alice@x.com" = .ok tok₁ ∧
      GenerateToken sampleCrypto sampleManager 5 1 "alice" "alice@x.com" = .ok tok₂ ∧
      tok₁.jti = some "1_5" ∧ tok₂.jti = some "1_5" :=
  ⟨_, _, GenerateToken_eq _ _ _ _ _ _, GenerateToken_eq _ _ _ _ _ _, by decide, by decide⟩

/-- C8 (amended), at a concrete input: the same user at two clock readings. -/
theorem C8_witness :
    (((1 : Int) ≠ 1 ∨ (5 : Time) ≠ 6)) ∧
    ∃ tok₁ tok₂ id₁ id₂,
      GenerateToken sampleCrypto sampleManager 5 1 "alice" "alice@x.com" = .ok tok₁ ∧
      GenerateToken sampleCrypto sampleManager 6 1 "alice" "alice@x.com" = .ok tok₂ ∧
      tok₁.jti = some id₁ ∧ tok₂.jti = some id₂ ∧ id₁ ≠ id₂ :=
  ⟨by decide,
    C8_distinct_token_ids sampleCrypto sampleManager 5 6 1 1 "alice" "alice@x.com" "alice"
      "alice@x.com" (by decide)⟩

/-- Revoking an issued token between its issue and its expiry, on a manager holding the
issuer's secret, succeeds and records the token id. -/
theorem RevokeToken_issued (C : Crypto) (tm tm' : TokenManager)
    (hsecret : tm'.secret = tm.secret) (issued now : Time) (userID : Int)
    (username email : String) (hafter : issued ≤ now)
    (hbefore : now < NewNumericDate (issued + tm.expiryTime)) :
    RevokeToken C tm' now (.encoded .HS256 (tm.newClaims issued userID username email)
        (signatureHS256 C tm.secret (tm.newClaims issued userID username email))) =
      (none, { tm' with revokedJTIs := insert (sprintfIdPair userID issued) tm'.revokedJTIs }) := by
  have hv := Verify_signatureHS256 C tm.secret (tm.newClaims issued userID username email)
  rw [← hsecret] at hv
  rw [RevokeToken_verified C tm' now _ _ _ (by rw [← hsecret]; exact hv),
    newClaims_expiresAt, newClaims_notBefore tm issued now userID username email hafter]
  simp [hbefore, TokenManager.newClaims]

/-- C9. Revocation is idempotent: for a token issued by the manager, two `RevokeToken`
calls made from the issuing instant on and before the token's expiry time both return no
error, and the revocation set after the second call equals the set after the first. -/
theorem C9_revoke_idempotent (C : Crypto) (tm : TokenManager) (issued t₁ t₂ : Time)
    (userID : Int) (username email : String)
    (hafter₁ : issued ≤ t₁) (hbefore₁ : t₁ < NewNumericDate (issued + tm.expiryTime))
    (hafter₂ : issued ≤ t₂) (hbefore₂ : t₂ < NewNumericDate (issued + tm.expiryTime)) :
    ∃ tok, GenerateToken C tm issued userID username email = .ok tok ∧
      (RevokeToken C tm t₁ tok).1 = none ∧
      (RevokeToken C (RevokeToken C tm t₁ tok).2 t₂ tok).1 = none ∧
      (RevokeToken C (RevokeToken C tm t₁ tok).2 t₂ tok).2.revokedJTIs =
        (RevokeToken C tm t₁ tok).2.revokedJTIs := by
  refine ⟨_, GenerateToken_eq _ _ _ _ _ _, ?_⟩
  rw [RevokeToken_issued C tm tm rfl issued t₁ userID username email hafter₁ hbefore₁]
  dsimp only
  rw [RevokeToken_issued C tm
    { tm with revokedJTIs := insert (sprintfIdPair userID issued) tm.revokedJTIs } rfl
    issued t₂ userID username email hafter₂ hbefore₂]
  exact ⟨rfl, rfl, Finset.insert_idem _ _⟩

/-- C9, at a concrete input: the sample token revoked at 1 s and again at 2 s. -/
theorem C9_witness :
    ((0 : Time) ≤ Second ∧ Second < NewNumericDate (0 + sampleManager.expiryTime) ∧
      (0 : Time) ≤ 2 * Second ∧ 2 * Second < NewNumericDate (0 + sampleManager.expiryTime)) ∧
    ∃ tok, GenerateToken sampleCrypto sampleManager 0 1 "alice" "alice@x.com" = .ok tok ∧
      (RevokeToken sampleCrypto sampleManager Second tok).1 = none ∧
      (RevokeToken sampleCrypto (RevokeToken sampleCrypto sampleManager Second tok).2
        (2 * Second) tok).1 = none ∧
      (RevokeToken sampleCrypto (RevokeToken sampleCrypto sampleManager Second tok).2
        (2 * Second) tok).2.revokedJTIs =
        (RevokeToken sampleCrypto sampleManager Second tok).2.revokedJTIs :=
  ⟨by decide,
    C9_revoke_idempotent sampleCrypto sampleManager 0 Second (2 * Second) 1 "alice"
      "alice@x.com" (by decide) (by decide) (by decide) (by decide)⟩

/-- C10. A garbage token string, one that cannot be decoded or whose signature does not
verify under the manager's secret, makes `RevokeToken` return an error and leaves the
manager, and with it the revocation set, unchanged. -/
theorem C10_revoke_garbage (C : Crypto) (tm : TokenManager) (now : Time) (tok : TokenString)
    (hgarbage : (∃ raw, tok = .malformed raw) ∨
      ∃ m c s, tok = .encoded m c s ∧ m.Verify C (C.signingString m c) s tm.secret = false) :
    (∃ err, (RevokeToken C tm now tok).1 = some err) ∧
      (RevokeToken C tm now tok).2 = tm ∧
      (RevokeToken C tm now tok).2.revokedJTIs = tm.revokedJTIs := by
  have h' : (∃ raw, tok = .malformed raw) ∨
      ∃ m c s, tok = .encoded m c s ∧
        (m.isHMAC = false ∨ m.Verify C (C.signingString m c) s tm.secret = false) := by
    rcases hgarbage with h | ⟨m, c, s, h, hv⟩
    · exact Or.inl h
    · exact Or.inr ⟨m, c, s, h, Or.inr hv⟩
  obtain ⟨err, herr⟩ := RevokeToken_rejected C tm now tok h'
  rw [herr]
  exact ⟨⟨_, rfl⟩, rfl, rfl⟩

/-- C10, at a concrete input: the string "invalid.token.here" of the test suite. -/
theorem C10_witness :
    ((∃ raw, TokenString.malformed "invalid.token.here" = .malformed raw) ∨
      ∃ m c s, TokenString.malformed "invalid.token.here" = .encoded m c s ∧
        m.Verify sampleCrypto (sampleCrypto.signingString m c) s sampleManager.secret =
          false) ∧
    (∃ err, (RevokeToken sampleCrypto sampleManager Second
        (.malformed "invalid.token.here")).1 = some err) ∧
      (RevokeToken sampleCrypto sampleManager Second (.malformed "invalid.token.here")).2 =
        sampleManager ∧
      (RevokeToken sampleCrypto sampleManager Second
        (.malformed "invalid.token.here")).2.revokedJTIs = sampleManager.revokedJTIs :=
  ⟨Or.inl ⟨_, rfl⟩,
    C10_revoke_garbage sampleCrypto sampleManager Second _ (Or.inl ⟨_, rfl⟩)⟩

/-! ## Lemmas on the in-memory repository -/

theorem GetByUsernameOrEmail_ok (mur : MemoryUserRepository) (pick : Nat)
    (username email : String) (user : User)
    (h : mur.GetByUsernameOrEmail pick username email = .ok user) :
    user ∈ mur.stored ∧ (user.Username = username ∨ user.Email = email) := by
  unfold MemoryUserRepository.GetByUsernameOrEmail at h
  simp only at h
  split at h
  · rename_i u hu
    have hmem := List.getElem?_mem hu
    simp only [List.mem_filter, Bool.or_eq_true, beq_iff_eq] at hmem
    cases h
    exact hmem
  · cases h

theorem GetByUsernameOrEmail_error (mur : MemoryUserRepository) (pick : Nat)
    (username email : String) (err : RepoError)
    (h : mur.GetByUsernameOrEmail pick username email = .error err) :
    err = .ErrUserNotFound ∧
      ∀ user ∈ mur.stored, ¬ (user.Username = username ∨ user.Email = email) := by
  unfold MemoryUserRepository.GetByUsernameOrEmail at h
  simp only at h
  split at h
  · cases h
  · rename_i hnone
    cases h
    refine ⟨rfl, ?_⟩
    rw [List.getElem?_eq_none_iff] at hnone
    have hnil : mur.stored.filter
        (fun user => user.Username == username || user.Email == email) = [] := by
      by_contra hne
      have hpos := List.length_pos.mpr hne
      have := Nat.mod_lt pick hpos
      omega
    intro user hmem hmatch
    rw [List.filter_eq_nil_iff] at hnil
    exact hnil user hmem (by simpa using hmatch)

theorem GetByUsernameOrEmail_of_match (mur : MemoryUserRepository) (pick : Nat)
    (username email : String)
    (h : ∃ user ∈ mur.stored, user.Username = username ∨ user.Email = email) :
    ∃ user, mur.GetByUsernameOrEmail pick username email = .ok user := by
  cases hres : mur.GetByUsernameOrEmail pick username email with
  | ok user => exact ⟨user, rfl⟩
  | error err =>
    obtain ⟨user, hmem, hmatch⟩ := h
    exact absurd hmatch ((GetByUsernameOrEmail_error mur pick username email err hres).2 user hmem)

theorem foldl_maxID_le (ids : List Int) : ∀ (start : Int),
    start ≤ ids.foldl (fun maxID id => if id > maxID then id else maxID) start ∧
      ∀ id ∈ ids, id ≤ ids.foldl (fun maxID id => if id > maxID then id else maxID) start := by
  induction ids with
  | nil => intro start; simp
  | cons a ids ih =>
    intro start
    simp only [List.foldl_cons, List.mem_cons, forall_eq_or_imp]
    by_cases hc : a > start
    · have h := ih a
      simp only [hc, if_true]
      exact ⟨by omega, h.1, h.2⟩
    · have h := ih start
      simp only [hc, if_false]
      exact ⟨h.1, by omega, h.2⟩

theorem maxID_nonneg (mur : MemoryUserRepository) : 0 ≤ mur.maxID :=
  (foldl_maxID_le _ 0).1

theorem le_maxID (mur : MemoryUserRepository) (entry : Int × User) (h : entry ∈ mur.users) :
    entry.1 ≤ mur.maxID :=
  (foldl_maxID_le _ 0).2 entry.1 (List.mem_map_of_mem Prod.fst h)

theorem lookup_maxID_succ (mur : MemoryUserRepository) :
    mur.users.lookup (mur.maxID + 1) = none := by
  rw [List.lookup_eq_none_iff]
  intro entry hmem
  have := le_maxID mur entry hmem
  simp only [bne_iff_ne, ne_eq]
  omega

/-- An integer inside the range of a 64-bit `int` is its own wrapped value. -/
theorem wrapInt64_of_range (x : Int) (hlo : MinInt64 ≤ x) (hhi : x ≤ MaxInt64) :
    wrapInt64 x = x := by
  unfold MinInt64 at hlo
  unfold MaxInt64 at hhi
  unfold wrapInt64
  have h : (x + 2 ^ 63) % 2 ^ 64 = x + 2 ^ 63 :=
    Int.emod_eq_of_lt (by norm_num; omega) (by norm_num; omega)
  rw [h]
  ring

/-- The wrapped value is always inside the range of a 64-bit `int`. -/
theorem wrapInt64_range (x : Int) : MinInt64 ≤ wrapInt64 x ∧ wrapInt64 x ≤ MaxInt64 := by
  unfold MinInt64 MaxInt64 wrapInt64
  have h1 := Int.emod_nonneg (x + 2 ^ 63) (show (2 : Int) ^ 64 ≠ 0 by norm_num)
  have h2 := Int.emod_lt_of_pos (x + 2 ^ 63) (show (0 : Int) < 2 ^ 64 by norm_num)
  constructor
  · norm_num at h1 h2 ⊢; omega
  · norm_num at h1 h2 ⊢; omega

/-- Below `MaxInt64` the sum `maxID + 1` does not wrap. -/
theorem wrapInt64_maxID_succ (mur : MemoryUserRepository) (hbound : mur.maxID < MaxInt64) :
    wrapInt64 (mur.maxID + 1) = mur.maxID + 1 := by
  have h := maxID_nonneg mur
  apply wrapInt64_of_range
  · unfold MinInt64; omega
  · omega

/-- At `MaxInt64` the sum `maxID + 1` wraps around to `MinInt64`. -/
theorem wrapInt64_MaxInt64_succ : wrapInt64 (MaxInt64 + 1) = MinInt64 := by
  decide

/-- Assigning to a key that the map does not hold appends the entry. -/
theorem mapSet_of_lookup_none (users : List (Int × User)) (id : Int) (user : User)
    (h : users.lookup id = none) : mapSet users id user = users ++ [(id, user)] := by
  unfold mapSet
  congr 1
  rw [List.filter_eq_self]
  intro entry hmem
  rw [List.lookup_eq_none_iff] at h
  have := h entry hmem
  simp only [bne_iff_ne, ne_eq] at this ⊢
  exact fun heq => this heq.symm

/-- A key that `lookup` does not find is the key of no entry. -/
theorem ne_of_lookup_none (users : List (Int × User)) (id : Int)
    (h : users.lookup id = none) (entry : Int × User) (hmem : entry ∈ users) :
    entry.1 ≠ id := by
  rw [List.lookup_eq_none_iff] at h
  have := h entry hmem
  simp only [bne_iff_ne, ne_eq] at this
  exact fun heq => this heq.symm

/-- Creating a user that has no id and no time stamps yet: the next id (the wrapped sum
`maxID + 1`) is assigned; if the map already holds that id nothing is created, and
otherwise the time stamps are set and the user is appended to the map. -/
theorem Create_fresh (S : StdLib) (mur : MemoryUserRepository) (n : Nondet)
    (req : RegisterRequest) (passwordHash : String) :
    mur.Create S n (some
      { ID := 0
        Username := TrimSpace req.Username
        Email := ToLower S (TrimSpace req.Email)
        PasswordHash := passwordHash
        FirstName := req.FirstName
        LastName := req.LastName
        CreatedAt := ""
        UpdatedAt := "" }) =
      if (mur.users.lookup (wrapInt64 (mur.maxID + 1))).isSome then (none, mur)
      else
        (some (registeredUser S mur n req passwordHash),
          { users := mur.users ++
              [(wrapInt64 (mur.maxID + 1), registeredUser S mur n req passwordHash)] }) := by
  simp only [MemoryUserRepository.Create, MemoryUserRepository.CreateUser, if_true]
  cases hlook : mur.users.lookup (wrapInt64 (mur.maxID + 1)) with
  | some user => simp
  | none =>
    simp only [Option.isSome_none, Bool.false_eq_true, if_false, registeredUser,
      mapSet_of_lookup_none _ _ _ hlook]

/-- The outcomes of `Register` on the in-memory repository. -/
theorem Register_memory (S : StdLib) (H : PasswordHasher) (mur : MemoryUserRepository)
    (n : Nondet) (salt : Bytes) (req : RegisterRequest) :
    Register S H (memoryRepository S n) mur salt req =
      if req.Username = "" ∨ req.Email = "" ∨ req.Password = "" then
        (.error .fieldsRequired, mur)
      else
        match mur.GetByUsernameOrEmail n.pick (TrimSpace req.Username)
            (ToLower S (TrimSpace req.Email)) with
        | .ok _ => (.error .ErrUserAlreadyExists, mur)
        | .error _ =>
          match H.HashPassword salt req.Password with
          | .error err => (.error (.failedToHashPassword err), mur)
          | .ok passwordHash =>
            if (mur.users.lookup (wrapInt64 (mur.maxID + 1))).isSome then (.ok none, mur)
            else
              (.ok (some (registeredUser S mur n req passwordHash)),
                { users := mur.users ++
                    [(wrapInt64 (mur.maxID + 1),
                      registeredUser S mur n req passwordHash)] }) := by
  unfold Register
  split
  · rfl
  · simp only [memoryRepository]
    cases hget : mur.GetByUsernameOrEmail n.pick (TrimSpace req.Username)
        (ToLower S (TrimSpace req.Email)) with
    | ok user => rfl
    | error err =>
      have herr := (GetByUsernameOrEmail_error _ _ _ _ _ hget).1
      subst herr
      simp only
      cases hhash : H.HashPassword salt req.Password with
      | error e => rfl
      | ok passwordHash =>
        simp only [Create_fresh]
        split <;> rfl

/-! ## Claims about the token manager, continued -/

theorem NewNumericDate_emod (t : Time) : NewNumericDate t % Second = 0 := by
  unfold NewNumericDate
  simp [Int.sub_emod]

theorem lt_NewNumericDate_add (t : Time) : t < NewNumericDate t + Second := by
  unfold NewNumericDate
  have := Int.emod_lt_of_pos t Second_pos
  linarith

/-- C11 (amended). For every `GenerateToken` call made at clock reading `now` on a manager
with expiry `d`, the claims in the returned token have issuer "voidrunner", `issuedAt` and
`notBefore` equal to `now` truncated down to a whole second, and `expiresAt` equal to
`now + d` truncated down to a whole second. -/
theorem C11_token_timestamps (C : Crypto) (tm : TokenManager) (now : Time) (userID : Int)
    (username email : String) :
    ∃ claims sig iat exp,
      GenerateToken C tm now userID username email = .ok (.encoded .HS256 claims sig) ∧
      claims.IssuedAt = some iat ∧ claims.NotBefore = some iat ∧
      claims.ExpiresAt = some exp ∧
      iat % Second = 0 ∧ iat ≤ now ∧ now < iat + Second ∧
      exp % Second = 0 ∧ exp ≤ now + tm.expiryTime ∧ now + tm.expiryTime < exp + Second ∧
      claims.Issuer = "voidrunner" :=
  ⟨_, _, NewNumericDate now, NewNumericDate (now + tm.expiryTime),
    GenerateToken_eq _ _ _ _ _ _, rfl, rfl, rfl,
    NewNumericDate_emod _, NewNumericDate_le _, lt_NewNumericDate_add _,
    NewNumericDate_emod _, NewNumericDate_le _, lt_NewNumericDate_add _, rfl⟩

/-- C11 as stated fails: a token generated at clock reading 1.5 s with one hour of expiry
carries `issuedAt = notBefore = 1 s` and `expiresAt = 3601 s`, not 1.5 s and 3601.5 s. -/
theorem C11_counterexample :
    ∃ claims sig,
      GenerateToken sampleCrypto sampleManager 1500000000 1 "alice" "alice@x.com" =
        .ok (.encoded .HS256 claims sig) ∧
      claims.IssuedAt = some 1000000000 ∧ claims.NotBefore = some 1000000000 ∧
      claims.ExpiresAt = some 3601000000000 ∧
      claims.IssuedAt ≠ some 1500000000 ∧
      claims.ExpiresAt ≠ some (1500000000 + sampleManager.expiryTime) :=
  ⟨_, _, GenerateToken_eq _ _ _ _ _ _, by decide, by decide, by decide, by decide, by decide⟩

theorem runCalls_append (C : Crypto) (tm : TokenManager) (before after : List Call) :
    runCalls C tm (before ++ after) = runCalls C (runCalls C tm before) after := by
  simp [runCalls, List.foldl_append]

/-- C12. The revocation set grows monotonically: a new manager starts with the empty set,
and a token id that is in the set after some calls (`GenerateToken`, `ValidateToken`,
`RevokeToken`, successful or failing) is in it after every further sequence of calls. -/
theorem C12_revocation_set_monotone (C : Crypto) (secret : Bytes) (expiryTime : Duration)
    (tm : TokenManager) (before after : List Call) (id : String)
    (hmem : id ∈ (runCalls C tm before).revokedJTIs) :
    (NewTokenManager secret expiryTime).revokedJTIs = ∅ ∧
      id ∈ (runCalls C tm (before ++ after)).revokedJTIs := by
  refine ⟨rfl, ?_⟩
  rw [runCalls_append]
  exact runCalls_revoked_mono C after _ hmem

/-- C12, at a concrete input: the sample token is revoked, then other calls follow. -/
theorem C12_witness :
    "1_0" ∈ (runCalls sampleCrypto sampleManager
        [.RevokeToken Second sampleToken]).revokedJTIs ∧
    (NewTokenManager [115] Second).revokedJTIs = ∅ ∧
      "1_0" ∈ (runCalls sampleCrypto sampleManager
        ([.RevokeToken Second sampleToken] ++
          [.ValidateToken (2 * Second) sampleToken,
            .RevokeToken (3 * Second) (.malformed "x"),
            .GenerateToken (4 * Second) 2 "bob" "bob@x.com"])).revokedJTIs :=
  ⟨by decide,
    C12_revocation_set_monotone sampleCrypto [115] Second sampleManager
      [.RevokeToken Second sampleToken] _ "1_0" (by decide)⟩

/-! ## Claims about the auth service -/

/-- C13. `Register` rejects collisions on either field: on every state of the in-memory
store and every request with non-empty username, email and password, if some stored
credential has `Username` equal to the trimmed request username or `Email` equal to the
trimmed, lower-cased request email, `Register` returns `ErrUserAlreadyExists` (and leaves
the store as it was). -/
theorem C13_register_rejects_collision (S : StdLib) (H : PasswordHasher)
    (mur : MemoryUserRepository) (n : Nondet) (salt : Bytes) (req : RegisterRequest)
    (hu : req.Username ≠ "") (he : req.Email ≠ "") (hp : req.Password ≠ "")
    (hcollision : ∃ c ∈ mur.stored,
      c.Username = TrimSpace req.Username ∨ c.Email = ToLower S (TrimSpace req.Email)) :
    Register S H (memoryRepository S n) mur salt req = (.error .ErrUserAlreadyExists, mur) := by
  rw [Register_memory]
  obtain ⟨user, hget⟩ := GetByUsernameOrEmail_of_match mur n.pick _ _ hcollision
  simp [hu, he, hp, hget]

/-- C14. `Register` fails with the validation error, which is not `ErrUserAlreadyExists`
and comes with no user, whenever the username, the email or the password of the request is
the empty string; the outcome is the same for every repository, whatever its methods
would answer, and the repository state is returned unchanged. -/
theorem C14_register_missing_fields {σ : Type} (S : StdLib) (H : PasswordHasher)
    (userRepo : UserRepository σ) (st : σ) (salt : Bytes) (req : RegisterRequest)
    (hempty : req.Username = "" ∨ req.Email = "" ∨ req.Password = "") :
    Register S H userRepo st salt req = (.error .fieldsRequired, st) ∧
      ServiceError.fieldsRequired ≠ ServiceError.ErrUserAlreadyExists := by
  refine ⟨?_, by intro h; cases h⟩
  unfold Register
  rw [if_pos hempty]

/-- C15. Register normalisation: for every `Register(req)` on the in-memory store that
returns no error, the credential it returns is the one stored under its id, with
`Username` the trimmed request username, `Email` the trimmed and lower-cased request
email, `FirstName` and `LastName` as supplied, and a `PasswordHash` that the password
hasher produced from the untrimmed request password.  A call that returns no error
returns such a credential unless the id counter has reached `MaxInt64` and the wrapped
next id is taken: then `CreateUser` returns nil with a nil error, `Register` passes that
on, and nothing is stored. -/
theorem C15_register_normalises (S : StdLib) (H : PasswordHasher)
    (mur : MemoryUserRepository) (n : Nondet) (salt : Bytes) (req : RegisterRequest)
    (created : Option User) (mur' : MemoryUserRepository)
    (hok : Register S H (memoryRepository S n) mur salt req = (.ok created, mur')) :
    (∀ user, created = some user →
      mur'.GetUser user.ID = .ok user ∧ user ∈ mur'.stored ∧
      user.Username = TrimSpace req.Username ∧
      user.Email = ToLower S (TrimSpace req.Email) ∧
      user.FirstName = req.FirstName ∧ user.LastName = req.LastName ∧
      H.HashPassword salt req.Password = .ok user.PasswordHash) ∧
    (mur.maxID < MaxInt64 → created.isSome = true) ∧
    (created = none → mur' = mur) := by
  rw [Register_memory] at hok
  split at hok
  · cases hok
  · split at hok
    · cases hok
    · split at hok
      · cases hok
      · rename_i passwordHash hhash
        cases hlook : mur.users.lookup (wrapInt64 (mur.maxID + 1)) with
        | some taken =>
          simp only [hlook, Option.isSome_some, if_true, Prod.mk.injEq,
            Except.ok.injEq] at hok
          obtain ⟨hcreated, hmur⟩ := hok
          subst hcreated hmur
          refine ⟨fun user h => (by cases h), ?_, fun _ => rfl⟩
          intro hbound
          rw [wrapInt64_maxID_succ mur hbound, lookup_maxID_succ] at hlook
          cases hlook
        | none =>
          simp only [hlook, Option.isSome_none, Bool.false_eq_true, if_false, Prod.mk.injEq,
            Except.ok.injEq] at hok
          obtain ⟨hcreated, hmur⟩ := hok
          subst hcreated hmur
          refine ⟨?_, fun _ => rfl, fun h => by cases h⟩
          intro user huser
          simp only [Option.some.injEq] at huser
          subst huser
          refine ⟨?_, ?_, rfl, rfl, rfl, rfl, hhash⟩
          · simp [MemoryUserRepository.GetUser, List.lookup_append, hlook, registeredUser]
          · simp [MemoryUserRepository.stored]

/-! ## Lemmas on `TrimSpace` and `ToLower` -/

theorem dropWhile_rdropWhile_of_dropWhile {α : Type} (p : α → Bool) (m : List α)
    (hm : m.dropWhile p = m) : (m.rdropWhile p).dropWhile p = m.rdropWhile p := by
  obtain ⟨t, ht⟩ := List.rdropWhile_prefix p m
  cases hr : m.rdropWhile p with
  | nil => rfl
  | cons a r =>
    rw [hr] at ht
    subst ht
    by_cases hpa : p a = true
    · rw [List.cons_append, List.dropWhile_cons_of_pos hpa] at hm
      have hlen := (List.dropWhile_suffix (l := r ++ t) p).length_le
      rw [hm] at hlen
      simp at hlen
    · exact List.dropWhile_cons_of_neg hpa

theorem trimmed_trim (l : List Char) :
    Trimmed (List.rdropWhile isSpace (l.dropWhile isSpace)) :=
  ⟨dropWhile_rdropWhile_of_dropWhile isSpace _ (List.dropWhile_idempotent isSpace l),
    List.rdropWhile_idempotent isSpace _⟩

theorem rdropWhile_map {α β : Type} (f : α → β) (p : β → Bool) (l : List α) :
    (l.map f).rdropWhile p = (l.rdropWhile (p ∘ f)).map f := by
  simp only [List.rdropWhile, ← List.map_reverse, List.dropWhile_map]

theorem trimmed_map (f : Char → Char) (hf : ∀ c, isSpace (f c) = isSpace c) (l : List Char)
    (h : Trimmed l) : Trimmed (l.map f) := by
  have hcomp : isSpace ∘ f = isSpace := funext hf
  refine ⟨?_, ?_⟩
  · rw [List.dropWhile_map, hcomp, h.1]
  · rw [rdropWhile_map, hcomp, h.2]

theorem TrimSpace_of_trimmed (s : String) (h : Trimmed s.data) : TrimSpace s = s := by
  unfold TrimSpace
  rw [h.1, h.2]

theorem trimmed_TrimSpace (s : String) : Trimmed (TrimSpace s).data :=
  trimmed_trim s.data

theorem trimmed_ToLower_TrimSpace (S : StdLib)
    (hlower : ∀ c, isSpace (S.toLowerRune c) = isSpace c) (s : String) :
    Trimmed (ToLower S (TrimSpace s)).data :=
  trimmed_map _ hlower _ (trimmed_trim s.data)

/-! ## Reachable states of the in-memory store -/

theorem runRegisters_cons (S : StdLib) (H : PasswordHasher) (mur : MemoryUserRepository)
    (call : RegisterCall) (calls : List RegisterCall) :
    runRegisters S H mur (call :: calls) =
      runRegisters S H
        (Register S H (memoryRepository S call.nondet) mur call.salt call.req).2 calls :=
  rfl

/-- After a `Register` call the store is as before, or it has one more entry: a user that
matches no stored user name or email, under the next id, which the map did not hold. -/
theorem Register_memory_state (S : StdLib) (H : PasswordHasher) (mur : MemoryUserRepository)
    (n : Nondet) (salt : Bytes) (req : RegisterRequest) :
    (Register S H (memoryRepository S n) mur salt req).2 = mur ∨
      ∃ passwordHash,
        (Register S H (memoryRepository S n) mur salt req).2 =
          { users := mur.users ++
              [(wrapInt64 (mur.maxID + 1), registeredUser S mur n req passwordHash)] } ∧
        mur.users.lookup (wrapInt64 (mur.maxID + 1)) = none ∧
        ∀ user ∈ mur.stored, ¬ (user.Username = TrimSpace req.Username ∨
          user.Email = ToLower S (TrimSpace req.Email)) := by
  rw [Register_memory]
  split
  · exact Or.inl rfl
  · cases hget : mur.GetByUsernameOrEmail n.pick (TrimSpace req.Username)
        (ToLower S (TrimSpace req.Email)) with
    | ok user => exact Or.inl rfl
    | error err =>
      cases hhash : H.HashPassword salt req.Password with
      | error e => exact Or.inl rfl
      | ok passwordHash =>
        cases hlook : mur.users.lookup (wrapInt64 (mur.maxID + 1)) with
        | some taken => exact Or.inl (by simp)
        | none =>
          refine Or.inr ⟨passwordHash, by simp, rfl, ?_⟩
          exact (GetByUsernameOrEmail_error _ _ _ _ _ hget).2

theorem Register_preserves_unique (S : StdLib) (H : PasswordHasher)
    (mur : MemoryUserRepository) (n : Nondet) (salt : Bytes) (req : RegisterRequest)
    (h : StoreUnique mur) :
    StoreUnique (Register S H (memoryRepository S n) mur salt req).2 := by
  rcases Register_memory_state S H mur n salt req with
    hsame | ⟨passwordHash, hnew, hlook, hfresh⟩
  · rw [hsame]; exact h
  · rw [hnew]
    obtain ⟨hkey, hid, hname, hmail⟩ := h
    refine ⟨?_, ?_, ?_, ?_⟩
    · intro entry hmem
      simp only [List.mem_append, List.mem_singleton] at hmem
      rcases hmem with hmem | rfl
      · exact hkey entry hmem
      · rfl
    · simp only [MemoryUserRepository.stored, List.map_append, List.map_cons, List.map_nil,
        List.nodup_append, List.nodup_singleton, List.disjoint_singleton, true_and]
      refine ⟨hid, ?_⟩
      intro hmem
      simp only [List.mem_map] at hmem
      obtain ⟨user, ⟨entry, hentry, rfl⟩, huser⟩ := hmem
      have h2 := hkey entry hentry
      have h3 : entry.2.ID = wrapInt64 (mur.maxID + 1) := huser
      exact ne_of_lookup_none _ _ hlook entry hentry (h2.symm.trans h3)
    · simp only [MemoryUserRepository.stored, List.map_append, List.map_cons, List.map_nil,
        List.nodup_append, List.nodup_singleton, List.disjoint_singleton, true_and]
      refine ⟨hname, ?_⟩
      intro hmem
      simp only [List.mem_map] at hmem
      obtain ⟨user, huser, hmatch⟩ := hmem
      exact hfresh user (by simpa [MemoryUserRepository.stored] using huser) (Or.inl hmatch)
    · simp only [MemoryUserRepository.stored, List.map_append, List.map_cons, List.map_nil,
        List.nodup_append, List.nodup_singleton, List.disjoint_singleton, true_and]
      refine ⟨hmail, ?_⟩
      intro hmem
      simp only [List.mem_map] at hmem
      obtain ⟨user, huser, hmatch⟩ := hmem
      exact hfresh user (by simpa [MemoryUserRepository.stored] using huser) (Or.inr hmatch)

theorem runRegisters_unique (S : StdLib) (H : PasswordHasher) (calls : List RegisterCall) :
    ∀ mur, StoreUnique mur → StoreUnique (runRegisters S H mur calls) := by
  induction calls with
  | nil => intro mur h; exact h
  | cons call calls ih =>
    intro mur h
    rw [runRegisters_cons]
    exact ih _ (Register_preserves_unique S H mur _ _ _ h)

/-- C16. Uniqueness invariant: in every state of the in-memory credential store reached
from the empty store by a sequence of `Register` calls, successful or not, no two stored
credentials share a `Username`, no two share an `Email`, and no two share an `ID`. -/
theorem C16_store_uniqueness (S : StdLib) (H : PasswordHasher) (calls : List RegisterCall) :
    ((runRegisters S H NewMemoryUserRepository calls).stored.map User.Username).Nodup ∧
      ((runRegisters S H NewMemoryUserRepository calls).stored.map User.Email).Nodup ∧
      ((runRegisters S H NewMemoryUserRepository calls).stored.map User.ID).Nodup := by
  have h := runRegisters_unique S H calls NewMemoryUserRepository
    ⟨fun entry hmem => (by cases hmem), List.nodup_nil, List.nodup_nil, List.nodup_nil⟩
  exact ⟨h.2.2.1, h.2.2.2, h.2.1⟩

theorem Register_preserves_trimmed (S : StdLib) (H : PasswordHasher)
    (hlower : ∀ c, isSpace (S.toLowerRune c) = isSpace c)
    (mur : MemoryUserRepository) (n : Nondet) (salt : Bytes) (req : RegisterRequest)
    (h : ∀ user ∈ mur.stored, Trimmed user.Username.data ∧ Trimmed user.Email.data) :
    ∀ user ∈ (Register S H (memoryRepository S n) mur salt req).2.stored,
      Trimmed user.Username.data ∧ Trimmed user.Email.data := by
  rcases Register_memory_state S H mur n salt req with hsame | ⟨passwordHash, hnew, _, _⟩
  · rw [hsame]; exact h
  · rw [hnew]
    intro user hmem
    simp only [MemoryUserRepository.stored, List.map_append, List.map_cons, List.map_nil,
      List.mem_append, List.mem_singleton] at hmem
    rcases hmem with hmem | rfl
    · exact h user hmem
    · exact ⟨trimmed_TrimSpace _, trimmed_ToLower_TrimSpace S hlower _⟩

theorem runRegisters_trimmed (S : StdLib) (H : PasswordHasher)
    (hlower : ∀ c, isSpace (S.toLowerRune c) = isSpace c) (calls : List RegisterCall) :
    ∀ mur, (∀ user ∈ mur.stored, Trimmed user.Username.data ∧ Trimmed user.Email.data) →
      ∀ user ∈ (runRegisters S H mur calls).stored,
        Trimmed user.Username.data ∧ Trimmed user.Email.data := by
  induction calls with
  | nil => intro mur h; exact h
  | cons call calls ih =>
    intro mur h
    rw [runRegisters_cons]
    exact ih _ (Register_preserves_trimmed S H hlower mur _ _ _ h)

/-- `Login` on the in-memory store with an identifier that is already trimmed and that
only the credential `c` matches, with a password that verifies against the digest of
`c`: a token is issued and returned with `c`. -/
theorem Login_only_match (C : Crypto) (S : StdLib) (H : PasswordHasher)
    (mur : MemoryUserRepository) (n : Nondet) (tm : TokenManager) (now : Time)
    (c : User) (identifier password : String)
    (hstored : c ∈ mur.stored)
    (hid : c.Username = identifier ∨ c.Email = identifier)
    (hne : identifier ≠ "") (hp : password ≠ "")
    (htrim : TrimSpace identifier = identifier)
    (hverify : H.CheckPasswordHash password c.PasswordHash = true)
    (honly : ∀ c' ∈ mur.stored, c'.Username = identifier ∨ c'.Email = identifier → c' = c) :
    Login C H (memoryRepository S n) mur tm now
        { Identifier := identifier, Password := password } =
      .ok { Token := .encoded .HS256 (tm.newClaims now c.ID c.Username c.Email)
              (signatureHS256 C tm.secret (tm.newClaims now c.ID c.Username c.Email))
            User := c } := by
  obtain ⟨user, hget⟩ := GetByUsernameOrEmail_of_match mur n.pick identifier identifier
    ⟨c, hstored, hid⟩
  have huser := GetByUsernameOrEmail_ok mur n.pick identifier identifier user hget
  have heq : user = c := honly user huser.1 huser.2
  subst heq
  simp [Login, hne, hp, htrim, memoryRepository, hget, hverify, GenerateToken_eq]

/-- C17 (amended). Login by either field: in every state of the in-memory store reached
from the empty store by `Register` calls, for every stored credential `c` registered with
password `p` (its digest was produced from `p`, and the hasher verifies `p` against its
own digests), `Login(identifier, p)` with `identifier` the non-empty `Username` or the
non-empty `Email` of `c` succeeds and returns a non-empty token together with `c`,
provided `c` is the only stored credential whose `Username` or `Email` equals that
identifier.  Lower-casing is taken to map no rune to or from white space. -/
theorem C17_login_by_either_field (C : Crypto) (S : StdLib) (H : PasswordHasher)
    (hlower : ∀ ch, isSpace (S.toLowerRune ch) = isSpace ch)
    (calls : List RegisterCall) (n : Nondet) (tm : TokenManager) (now : Time)
    (c : User) (identifier p : String)
    (hstored : c ∈ (runRegisters S H NewMemoryUserRepository calls).stored)
    (hid : identifier = c.Username ∨ identifier = c.Email)
    (hne : identifier ≠ "") (hp : p ≠ "")
    (hregistered : ∃ salt, H.HashPassword salt p = .ok c.PasswordHash)
    (hsound : ∀ salt digest, H.HashPassword salt p = .ok digest →
      H.CheckPasswordHash p digest = true)
    (honly : ∀ c' ∈ (runRegisters S H NewMemoryUserRepository calls).stored,
      c'.Username = identifier ∨ c'.Email = identifier → c' = c) :
    ∃ token,
      Login C H (memoryRepository S n) (runRegisters S H NewMemoryUserRepository calls) tm now
          { Identifier := identifier, Password := p } = .ok { Token := token, User := c } ∧
        token.isEmpty = false := by
  have htrimmed := runRegisters_trimmed S H hlower calls NewMemoryUserRepository
    (fun user hmem => (by cases hmem)) c hstored
  have htrim : TrimSpace identifier = identifier := by
    rcases hid with h | h
    · rw [h]; exact TrimSpace_of_trimmed _ htrimmed.1
    · rw [h]; exact TrimSpace_of_trimmed _ htrimmed.2
  obtain ⟨salt, hsalt⟩ := hregistered
  exact ⟨_, Login_only_match C S H _ n tm now c identifier p hstored
    (hid.imp Eq.symm Eq.symm) hne hp htrim (hsound salt _ hsalt) honly, rfl⟩

/-- C19. Uniform credential failure: for every `Login` on the in-memory store with a
non-empty identifier and password, if no stored credential matches the trimmed identifier,
or the matching credentials do not verify the password against their stored hash, `Login`
returns the one value `ErrInvalidCredentials`, with no response and hence no token. -/
theorem C19_uniform_credential_failure (C : Crypto) (S : StdLib) (H : PasswordHasher)
    (mur : MemoryUserRepository) (n : Nondet) (tm : TokenManager) (now : Time)
    (req : LoginRequest) (hi : req.Identifier ≠ "") (hp : req.Password ≠ "")
    (hfail : ∀ c ∈ mur.stored,
      c.Username = TrimSpace req.Identifier ∨ c.Email = TrimSpace req.Identifier →
        H.CheckPasswordHash req.Password c.PasswordHash = false) :
    Login C H (memoryRepository S n) mur tm now req = .error .ErrInvalidCredentials := by
  unfold Login
  simp only [hi, hp, or_self, if_false, memoryRepository]
  cases hget : mur.GetByUsernameOrEmail n.pick (TrimSpace req.Identifier)
      (TrimSpace req.Identifier) with
  | error err =>
    have herr := (GetByUsernameOrEmail_error _ _ _ _ _ hget).1
    subst herr
    rfl
  | ok user =>
    have huser := GetByUsernameOrEmail_ok _ _ _ _ _ hget
    simp [hfail user huser.1 huser.2]

/-- A token issued for a user validates, from the issuing instant up to its expiry time and
while its id is not revoked, to claims that carry the id, name and email of that user. -/
theorem ValidateToken_issued (C : Crypto) (tm : TokenManager) (revoked : Finset String)
    (issued now : Time) (userID : Int) (username email : String)
    (hafter : issued ≤ now) (hbefore : now < NewNumericDate (issued + tm.expiryTime))
    (hnotRevoked : sprintfIdPair userID issued ∉ revoked) :
    ValidateToken C { tm with revokedJTIs := revoked } now
        (.encoded .HS256 (tm.newClaims issued userID username email)
          (signatureHS256 C tm.secret (tm.newClaims issued userID username email))) =
      .ok (tm.newClaims issued userID username email) := by
  rw [ValidateToken_verified C { tm with revokedJTIs := revoked } now _ _ _
      (Verify_signatureHS256 C tm.secret _),
    newClaims_expiresAt, newClaims_notBefore tm issued now userID username email hafter]
  have hid : (tm.newClaims issued userID username email).ID = sprintfIdPair userID issued := rfl
  simp [hbefore, hid, hnotRevoked]

/-- C20. The login token carries the returned identity: for every successful `Login`,
over whatever repository, `ValidateToken(response.Token)` on the service's token manager,
from the login instant up to the token's expiry time and with the token id not in the
revocation set, succeeds with claims whose `UserID`, `Username` and `Email` equal the
`ID`, `Username` and `Email` of `response.User`. -/
theorem C20_login_token_identity {σ : Type} (C : Crypto) (H : PasswordHasher)
    (userRepo : UserRepository σ) (st : σ) (tm : TokenManager) (now : Time)
    (req : LoginRequest) (response : LoginResponse)
    (hlogin : Login C H userRepo st tm now req = .ok response)
    (revoked : Finset String) (later : Time)
    (hafter : now ≤ later) (hbefore : later < NewNumericDate (now + tm.expiryTime))
    (hnotRevoked : ∀ id, response.Token.jti = some id → id ∉ revoked) :
    ∃ claims, ValidateToken C { tm with revokedJTIs := revoked } later response.Token =
        .ok claims ∧
      claims.UserID = response.User.ID ∧ claims.Username = response.User.Username ∧
      claims.Email = response.User.Email := by
  unfold Login at hlogin
  split at hlogin
  · cases hlogin
  · simp only at hlogin
    split at hlogin
    · cases hlogin
    · cases hlogin
    · rename_i user hget
      split at hlogin
      · cases hlogin
      · rw [GenerateToken_eq] at hlogin
        simp only [Except.ok.injEq] at hlogin
        subst hlogin
        refine ⟨_, ValidateToken_issued C tm revoked now later user.ID user.Username
          user.Email hafter hbefore (hnotRevoked _ rfl), rfl, rfl, rfl⟩

/-! ## The sample instances -/

theorem digitChar_isDigit : ∀ a, a < 10 → (Nat.digitChar a).isDigit = true := by decide

theorem sampleHasher_sound (salt : Bytes) (password digest : String) (hp : password ≠ "")
    (h : sampleHasher.HashPassword salt password = .ok digest) :
    sampleHasher.CheckPasswordHash password digest = true := by
  simp only [sampleHasher, Except.ok.injEq] at h
  subst h
  have hdrop : ∀ l : Bytes, List.dropWhile Char.isDigit
      (l.map (fun b => Nat.digitChar (b % 10)) ++ '$' :: password.data) =
      '$' :: password.data := by
    intro l
    induction l with
    | nil => rfl
    | cons b l ih =>
      rw [List.map_cons, List.cons_append,
        List.dropWhile_cons_of_pos (digitChar_isDigit _ (Nat.mod_lt _ (by norm_num)))]
      exact ih
  simp [sampleHasher, hdrop, hp]

theorem toLower_isSpace (c : Char) : isSpace c.toLower = isSpace c := by
  unfold Char.toLower
  simp only
  split
  · rename_i h
    have hc : c = Char.ofNat c.toNat := (Char.ofNat_toNat c).symm
    generalize c.toNat = n at h hc
    subst hc
    obtain ⟨h1, h2⟩ := h
    interval_cases n <;> decide
  · rfl

/-! ## The claims at concrete inputs -/

/-- C13, at a concrete input: the user name "alice" is taken, the email is new. -/
theorem C13_witness :
    (("alice" : String) ≠ "" ∧ ("new@x.com" : String) ≠ "" ∧ ("pw999" : String) ≠ "" ∧
      ∃ c ∈ sampleStore.stored, c.Username = TrimSpace "alice" ∨
        c.Email = ToLower sampleStdLib (TrimSpace "new@x.com")) ∧
    Register sampleStdLib sampleHasher (memoryRepository sampleStdLib sampleNondet)
        sampleStore [7]
        { Username := "alice", Email := "new@x.com", Password := "pw999"
          FirstName := "", LastName := "" } =
      (.error .ErrUserAlreadyExists, sampleStore) :=
  ⟨⟨by decide, by decide, by decide, sampleUser, by decide, Or.inl (by decide)⟩,
    C13_register_rejects_collision sampleStdLib sampleHasher sampleStore sampleNondet [7]
      { Username := "alice", Email := "new@x.com", Password := "pw999"
        FirstName := "", LastName := "" }
      (by decide) (by decide) (by decide) ⟨sampleUser, by decide, Or.inl (by decide)⟩⟩

/-- C14, at a concrete input: a request without a password. -/
theorem C14_witness :
    (("alice" : String) = "" ∨ ("a@x.com" : String) = "" ∨ ("" : String) = "") ∧
    Register sampleStdLib sampleHasher (memoryRepository sampleStdLib sampleNondet)
        sampleStore [7]
        { Username := "alice", Email := "a@x.com", Password := ""
          FirstName := "", LastName := "" } =
      (.error .fieldsRequired, sampleStore) ∧
      ServiceError.fieldsRequired ≠ ServiceError.ErrUserAlreadyExists :=
  ⟨Or.inr (Or.inr rfl),
    C14_register_missing_fields sampleStdLib sampleHasher
      (memoryRepository sampleStdLib sampleNondet) sampleStore [7]
      { Username := "alice", Email := "a@x.com", Password := ""
        FirstName := "", LastName := "" } (Or.inr (Or.inr rfl))⟩

/-- C15, at a concrete input: `sampleRequest` registered in the empty store. -/
theorem C15_witness :
    Register sampleStdLib sampleHasher (memoryRepository sampleStdLib sampleNondet)
        NewMemoryUserRepository [1, 2] sampleRequest = (.ok (some sampleUser), sampleStore) ∧
    ((∀ user, some sampleUser = some user →
      sampleStore.GetUser user.ID = .ok user ∧ user ∈ sampleStore.stored ∧
      user.Username = TrimSpace sampleRequest.Username ∧
      user.Email = ToLower sampleStdLib (TrimSpace sampleRequest.Email) ∧
      user.FirstName = sampleRequest.FirstName ∧ user.LastName = sampleRequest.LastName ∧
      sampleHasher.HashPassword [1, 2] sampleRequest.Password = .ok user.PasswordHash) ∧
    (NewMemoryUserRepository.maxID < MaxInt64 → (some sampleUser).isSome = true) ∧
    (some sampleUser = none → sampleStore = NewMemoryUserRepository)) :=
  ⟨by decide,
    C15_register_normalises sampleStdLib sampleHasher NewMemoryUserRepository sampleNondet
      [1, 2] sampleRequest (some sampleUser) sampleStore (by decide)⟩

/-- `Register` when the id counter has wrapped onto an id of the map: on `wrappedStore`,
which holds the ids `MaxInt64` and `MinInt64`, a request that collides with no stored
user name or email returns no error and no user, and the store stays as it was. -/
theorem Register_wrapped_id_taken :
    wrappedStore.maxID = MaxInt64 ∧
    Register sampleStdLib sampleHasher (memoryRepository sampleStdLib sampleNondet)
        wrappedStore [1, 2] sampleRequest = (.ok none, wrappedStore) := by
  decide

/-- C17 as stated fails: after the two registrations of `crossedCalls` the second user,
registered with "pwB", cannot log in with its email "bob@x.com" when the lookup meets the
first user, whose user name is that same string, first. -/
theorem C17_counterexample :
    crossedUser ∈ (runRegisters sampleStdLib sampleHasher NewMemoryUserRepository
        crossedCalls).stored ∧
    crossedUser.Username ≠ "" ∧ crossedUser.Email = "bob@x.com" ∧
    sampleHasher.HashPassword [3] "pwB" = .ok crossedUser.PasswordHash ∧
    sampleHasher.CheckPasswordHash "pwB" crossedUser.PasswordHash = true ∧
    Login sampleCrypto sampleHasher (memoryRepository sampleStdLib sampleNondet)
        (runRegisters sampleStdLib sampleHasher NewMemoryUserRepository crossedCalls)
        sampleManager 7 { Identifier := "bob@x.com", Password := "pwB" } =
      .error .ErrInvalidCredentials := by
  decide

/-- C17 (amended), at a concrete input: login with the stored email of `sampleUser`. -/
theorem C17_witness :
    (sampleUser ∈ (runRegisters sampleStdLib sampleHasher NewMemoryUserRepository
        [{ nondet := sampleNondet, salt := [1, 2], req := sampleRequest }]).stored ∧
      ("alice@x.com" = sampleUser.Username ∨ "alice@x.com" = sampleUser.Email) ∧
      ("alice@x.com" : String) ≠ "" ∧ ("pw123" : String) ≠ "" ∧
      sampleHasher.HashPassword [1, 2] "pw123" = .ok sampleUser.PasswordHash) ∧
    ∃ token,
      Login sampleCrypto sampleHasher (memoryRepository sampleStdLib sampleNondet)
          (runRegisters sampleStdLib sampleHasher NewMemoryUserRepository
            [{ nondet := sampleNondet, salt := [1, 2], req := sampleRequest }])
          sampleManager 7 { Identifier := "alice@x.com", Password := "pw123" } =
        .ok { Token := token, User := sampleUser } ∧
      token.isEmpty = false :=
  ⟨by decide,
    C17_login_by_either_field sampleCrypto sampleStdLib sampleHasher toLower_isSpace
      [{ nondet := sampleNondet, salt := [1, 2], req := sampleRequest }] sampleNondet
      sampleManager 7 sampleUser "alice@x.com" "pw123" (by decide) (Or.inr (by decide))
      (by decide) (by decide) ⟨[1, 2], by decide⟩
      (fun salt digest h => sampleHasher_sound salt "pw123" digest (by decide) h)
      (by decide)⟩

/-- C18 fails on the code: `sampleRequest`, with the email "Alice@X.com", is registered in
the empty store; `Login` with that same email string and the same password returns
`ErrInvalidCredentials`, while `Login` with the lower-cased email is accepted. -/
theorem C18_failing_input :
    (Register sampleStdLib sampleHasher (memoryRepository sampleStdLib sampleNondet)
        NewMemoryUserRepository [1, 2] sampleRequest).1 = .ok (some sampleUser) ∧
    Login sampleCrypto sampleHasher (memoryRepository sampleStdLib sampleNondet)
        (Register sampleStdLib sampleHasher (memoryRepository sampleStdLib sampleNondet)
          NewMemoryUserRepository [1, 2] sampleRequest).2
        sampleManager 7 { Identifier := sampleRequest.Email, Password := sampleRequest.Password } =
      .error .ErrInvalidCredentials ∧
    (Login sampleCrypto sampleHasher (memoryRepository sampleStdLib sampleNondet)
        (Register sampleStdLib sampleHasher (memoryRepository sampleStdLib sampleNondet)
          NewMemoryUserRepository [1, 2] sampleRequest).2
        sampleManager 7 { Identifier := "alice@x.com", Password := "pw123" }).toOption.map
      LoginResponse.User = some sampleUser := by
  decide

/-- C19, at a concrete input: an unknown identifier, and a known one with a wrong
password, give the same error value. -/
theorem C19_witness :
    Login sampleCrypto sampleHasher (memoryRepository sampleStdLib sampleNondet) sampleStore
        sampleManager 7 { Identifier := "nobody", Password := "whatever" } =
      .error .ErrInvalidCredentials ∧
    Login sampleCrypto sampleHasher (memoryRepository sampleStdLib sampleNondet) sampleStore
        sampleManager 7 { Identifier := "alice", Password := "wrongpw" } =
      .error .ErrInvalidCredentials :=
  ⟨C19_uniform_credential_failure sampleCrypto sampleStdLib sampleHasher sampleStore
      sampleNondet sampleManager 7 { Identifier := "nobody", Password := "whatever" }
      (by decide) (by decide) (by decide),
    C19_uniform_credential_failure sampleCrypto sampleStdLib sampleHasher sampleStore
      sampleNondet sampleManager 7 { Identifier := "alice", Password := "wrongpw" }
      (by decide) (by decide) (by decide)⟩

/-- C20, at a concrete input: login at clock reading 7, validation one second later. -/
theorem C20_witness :
    (Login sampleCrypto sampleHasher (memoryRepository sampleStdLib sampleNondet) sampleStore
        sampleManager 7 { Identifier := "alice", Password := "pw123" } = .ok sampleResponse ∧
      (7 : Time) ≤ Second ∧ Second < NewNumericDate (7 + sampleManager.expiryTime)) ∧
    ∃ claims, ValidateToken sampleCrypto { sampleManager with revokedJTIs := ∅ } Second
        sampleResponse.Token = .ok claims ∧
      claims.UserID = sampleResponse.User.ID ∧
      claims.Username = sampleResponse.User.Username ∧
      claims.Email = sampleResponse.User.Email :=
  ⟨by decide,
    C20_login_token_identity sampleCrypto sampleHasher
      (memoryRepository sampleStdLib sampleNondet) sampleStore sampleManager 7
      { Identifier := "alice", Password := "pw123" } sampleResponse (by decide) ∅ Second
      (by decide) (by decide) (fun _ _ => Finset.not_mem_empty _)⟩

/-! ## Logout -/

theorem Logout_nonempty (C : Crypto) (tm : TokenManager) (now : Time) (token : TokenString)
    (hne : token.isEmpty = false) :
    Logout C tm now token =
      ((RevokeToken C tm now token).1.map ServiceError.failedToRevokeToken,
        (RevokeToken C tm now token).2) := by
  unfold Logout
  rw [hne]
  simp only [Bool.false_eq_true, if_false]
  rcases hr : RevokeToken C tm now token with ⟨err, tm'⟩
  cases err <;> rfl

theorem Logout_issued (C : Crypto) (tm tm' : TokenManager)
    (hsecret : tm'.secret = tm.secret) (issued now : Time) (userID : Int)
    (username email : String) (hafter : issued ≤ now)
    (hbefore : now < NewNumericDate (issued + tm.expiryTime)) :
    Logout C tm' now (.encoded .HS256 (tm.newClaims issued userID username email)
        (signatureHS256 C tm.secret (tm.newClaims issued userID username email))) =
      (none, { tm' with revokedJTIs := insert (sprintfIdPair userID issued) tm'.revokedJTIs }) := by
  rw [Logout_nonempty C tm' now
      (.encoded .HS256 (tm.newClaims issued userID username email)
        (signatureHS256 C tm.secret (tm.newClaims issued userID username email))) rfl,
    RevokeToken_issued C tm tm' hsecret issued now userID username email hafter hbefore]
  rfl

/-- C21. Logout delegates to revocation: for every non-empty token string, `Logout(token)`
returns an error exactly when `RevokeToken(token)` does and leaves the token manager as
`RevokeToken(token)` leaves it; and for a token issued by the manager, a `Logout` before
its expiry succeeds, a following `ValidateToken` before its expiry fails with
`ErrInvalidToken`, and a second `Logout` before its expiry succeeds. -/
theorem C21_logout_delegates (C : Crypto) (tm : TokenManager) (now : Time)
    (token : TokenString) (hne : token.isEmpty = false)
    (issued t₁ t₂ t₃ : Time) (userID : Int) (username email : String)
    (hafter₁ : issued ≤ t₁) (hbefore₁ : t₁ < NewNumericDate (issued + tm.expiryTime))
    (hafter₂ : issued ≤ t₂) (hbefore₂ : t₂ < NewNumericDate (issued + tm.expiryTime))
    (hafter₃ : issued ≤ t₃) (hbefore₃ : t₃ < NewNumericDate (issued + tm.expiryTime)) :
    (((Logout C tm now token).1 = none ↔ (RevokeToken C tm now token).1 = none) ∧
      (Logout C tm now token).2 = (RevokeToken C tm now token).2) ∧
    ∃ tok, GenerateToken C tm issued userID username email = .ok tok ∧
      (Logout C tm t₁ tok).1 = none ∧
      ValidateToken C (Logout C tm t₁ tok).2 t₂ tok = .error .ErrInvalidToken ∧
      (Logout C (Logout C tm t₁ tok).2 t₃ tok).1 = none := by
  refine ⟨?_, _, GenerateToken_eq _ _ _ _ _ _, ?_⟩
  · rw [Logout_nonempty C tm now token hne]
    exact ⟨by simp, rfl⟩
  · rw [Logout_issued C tm tm rfl issued t₁ userID username email hafter₁ hbefore₁]
    dsimp only
    rw [Logout_issued C tm
      { tm with revokedJTIs := insert (sprintfIdPair userID issued) tm.revokedJTIs } rfl
      issued t₃ userID username email hafter₃ hbefore₃]
    refine ⟨rfl, ?_, rfl⟩
    rw [ValidateToken_verified C
        { tm with revokedJTIs := insert (sprintfIdPair userID issued) tm.revokedJTIs } t₂ _ _ _
        (Verify_signatureHS256 C tm.secret _),
      newClaims_expiresAt, newClaims_notBefore tm issued t₂ userID username email hafter₂]
    have hid : (tm.newClaims issued userID username email).ID = sprintfIdPair userID issued :=
      rfl
    simp [hbefore₂, hid]

/-- C21, at a concrete input: the token "x.y.z" for the first part, the sample token logged
out at 1 s, validated at 2 s and logged out again at 3 s. -/
theorem C21_witness :
    ((TokenString.malformed "x.y.z").isEmpty = false ∧
      (0 : Time) ≤ Second ∧ Second < NewNumericDate (0 + sampleManager.expiryTime) ∧
      (0 : Time) ≤ 2 * Second ∧ 2 * Second < NewNumericDate (0 + sampleManager.expiryTime) ∧
      (0 : Time) ≤ 3 * Second ∧ 3 * Second < NewNumericDate (0 + sampleManager.expiryTime)) ∧
    (((Logout sampleCrypto sampleManager 5 (.malformed "x.y.z")).1 = none ↔
        (RevokeToken sampleCrypto sampleManager 5 (.malformed "x.y.z")).1 = none) ∧
      (Logout sampleCrypto sampleManager 5 (.malformed "x.y.z")).2 =
        (RevokeToken sampleCrypto sampleManager 5 (.malformed "x.y.z")).2) ∧
    ∃ tok, GenerateToken sampleCrypto sampleManager 0 1 "alice" "alice@x.com" = .ok tok ∧
      (Logout sampleCrypto sampleManager Second tok).1 = none ∧
      ValidateToken sampleCrypto (Logout sampleCrypto sampleManager Second tok).2
        (2 * Second) tok = .error .ErrInvalidToken ∧
      (Logout sampleCrypto (Logout sampleCrypto sampleManager Second tok).2
        (3 * Second) tok).1 = none :=
  ⟨by decide,
    C21_logout_delegates sampleCrypto sampleManager 5 (.malformed "x.y.z") rfl 0 Second
      (2 * Second) (3 * Second) 1 "alice" "alice@x.com" (by decide) (by decide) (by decide)
      (by decide) (by decide) (by decide)⟩

/-- C22. `Logout("")` returns the validation error "token is required" and the token
manager as it was, whatever the clock and the primitives of the library are: `RevokeToken`
has no part in the outcome, and the revocation set is unchanged. -/
theorem C22_logout_empty_token (C : Crypto) (tm : TokenManager) (now : Time) :
    Logout C tm now (.malformed "") = (some .tokenRequired, tm) ∧
      (Logout C tm now (.malformed "")).2.revokedJTIs = tm.revokedJTIs ∧
      ServiceError.Error (fun _ => "") .tokenRequired = "token is required" :=
  ⟨rfl, rfl, rfl⟩

/-! ## Error texts -/

/-- `Register` when the lookup fails with an error other than not-found. -/
theorem Register_lookup_failure {σ : Type} (S : StdLib) (H : PasswordHasher)
    (userRepo : UserRepository σ) (st : σ) (salt : Bytes) (req : RegisterRequest)
    (text : String)
    (hreq : ¬ (req.Username = "" ∨ req.Email = "" ∨ req.Password = ""))
    (hlookup : userRepo.GetByUsernameOrEmail st (TrimSpace req.Username)
      (ToLower S (TrimSpace req.Email)) = .error (.other text)) :
    Register S H userRepo st salt req =
      (.error (.failedToCheckExistingUser (.other text)), st) := by
  unfold Register
  rw [if_neg hreq]
  simp only [hlookup]

/-- `Register` when the lookup finds nothing, the password is hashed and the create
fails. -/
theorem Register_create_failure {σ : Type} (S : StdLib) (H : PasswordHasher)
    (userRepo : UserRepository σ) (st : σ) (salt : Bytes) (req : RegisterRequest)
    (passwordHash : String) (cause : RepoError)
    (hreq : ¬ (req.Username = "" ∨ req.Email = "" ∨ req.Password = ""))
    (hlookup : userRepo.GetByUsernameOrEmail st (TrimSpace req.Username)
      (ToLower S (TrimSpace req.Email)) = .error .ErrUserNotFound)
    (hhash : H.HashPassword salt req.Password = .ok passwordHash)
    (hcreate : (userRepo.Create st
      { ID := 0
        Username := TrimSpace req.Username
        Email := ToLower S (TrimSpace req.Email)
        PasswordHash := passwordHash
        FirstName := req.FirstName
        LastName := req.LastName
        CreatedAt := ""
        UpdatedAt := "" }).1 = .error cause) :
    (Register S H userRepo st salt req).1 = .error (.failedToCreateUser cause) := by
  unfold Register
  rw [if_neg hreq]
  simp only [hlookup, hhash]
  split
  · rename_i err st' heq
    rw [heq] at hcreate
    simp only [Except.error.injEq] at hcreate
    rw [hcreate]
  · rename_i created st' heq
    rw [heq] at hcreate
    cases hcreate

/-- `Login` when the lookup fails with an error other than not-found. -/
theorem Login_lookup_failure {σ : Type} (C : Crypto) (H : PasswordHasher)
    (userRepo : UserRepository σ) (st : σ) (tm : TokenManager) (now : Time)
    (req : LoginRequest) (text : String)
    (hreq : ¬ (req.Identifier = "" ∨ req.Password = ""))
    (hlookup : userRepo.GetByUsernameOrEmail st (TrimSpace req.Identifier)
      (TrimSpace req.Identifier) = .error (.other text)) :
    Login C H userRepo st tm now req = .error (.failedToGetUser (.other text)) := by
  unfold Login
  rw [if_neg hreq]
  simp only [hlookup]

/-- C23 (amended). The errors of the auth service wrap their cause: when the credential
store fails (a lookup error other than not-found, or a create error) or the token manager
fails to parse a token for revocation, the message of the error that `Register`, `Login`
or `Logout` returns is a fixed description, a colon and a blank, and the text of the
underlying cause. -/
theorem C23_service_errors_wrap_cause {σ : Type} (C : Crypto) (S : StdLib)
    (H : PasswordHasher)
    (jwtText : JWTError → String) (userRepo : UserRepository σ) (st : σ) (salt : Bytes)
    (req req' : RegisterRequest) (lreq : LoginRequest) (tm : TokenManager) (now : Time)
    (token : TokenString) (lookupText loginText passwordHash : String)
    (createCause : RepoError) (revokeCause : RevokeError)
    (hreq : ¬ (req.Username = "" ∨ req.Email = "" ∨ req.Password = ""))
    (hlookup : userRepo.GetByUsernameOrEmail st (TrimSpace req.Username)
      (ToLower S (TrimSpace req.Email)) = .error (.other lookupText))
    (hreq' : ¬ (req'.Username = "" ∨ req'.Email = "" ∨ req'.Password = ""))
    (hlookup' : userRepo.GetByUsernameOrEmail st (TrimSpace req'.Username)
      (ToLower S (TrimSpace req'.Email)) = .error .ErrUserNotFound)
    (hhash : H.HashPassword salt req'.Password = .ok passwordHash)
    (hcreate : (userRepo.Create st
      { ID := 0
        Username := TrimSpace req'.Username
        Email := ToLower S (TrimSpace req'.Email)
        PasswordHash := passwordHash
        FirstName := req'.FirstName
        LastName := req'.LastName
        CreatedAt := ""
        UpdatedAt := "" }).1 = .error createCause)
    (hlreq : ¬ (lreq.Identifier = "" ∨ lreq.Password = ""))
    (hlogin : userRepo.GetByUsernameOrEmail st (TrimSpace lreq.Identifier)
      (TrimSpace lreq.Identifier) = .error (.other loginText))
    (htoken : token.isEmpty = false)
    (hrevoke : (RevokeToken C tm now token).1 = some revokeCause) :
    (∃ err, (Register S H userRepo st salt req).1 = .error err ∧
      err.Error jwtText = "failed to check existing user: " ++ lookupText) ∧
    (∃ err, (Register S H userRepo st salt req').1 = .error err ∧
      err.Error jwtText = "failed to create user: " ++ createCause.Error) ∧
    (∃ err, Login C H userRepo st tm now lreq = .error err ∧
      err.Error jwtText = "failed to get user: " ++ loginText) ∧
    (∃ err, (Logout C tm now token).1 = some err ∧
      err.Error jwtText = "failed to revoke token: " ++ revokeCause.Error jwtText) := by
  refine ⟨⟨.failedToCheckExistingUser (.other lookupText), ?_, rfl⟩,
    ⟨.failedToCreateUser createCause, ?_, rfl⟩,
    ⟨.failedToGetUser (.other loginText), ?_, rfl⟩,
    ⟨.failedToRevokeToken revokeCause, ?_, rfl⟩⟩
  · rw [Register_lookup_failure S H userRepo st salt req lookupText hreq hlookup]
  · exact Register_create_failure S H userRepo st salt req' passwordHash createCause hreq'
      hlookup' hhash hcreate
  · exact Login_lookup_failure C H userRepo st tm now lreq loginText hlreq hlogin
  · rw [Logout_nonempty C tm now token htoken, hrevoke]
    rfl

/-- C23 as stated fails: over a store whose lookup fails with "mock error", `Register`
returns an error whose message contains that text. -/
theorem C23_counterexample :
    ∃ err,
      (Register sampleStdLib sampleHasher sampleFailingRepository () [1]
        { Username := "alice", Email := "a@x.com", Password := "pw123"
          FirstName := "", LastName := "" }).1 = .error err ∧
      err.Error sampleJwtText = "failed to check existing user: mock error" ∧
      "mock error".data <:+: (err.Error sampleJwtText).data :=
  ⟨.failedToCheckExistingUser (.other "mock error"), by decide, by decide, by decide⟩

/-- C23 (amended), at a concrete input: the failing repository, and the token string
"garbage" handed to `Logout`. -/
theorem C23_witness :
    (∃ err, (Register sampleStdLib sampleHasher sampleFailingRepository () [1]
        { Username := "alice", Email := "a@x.com", Password := "pw123"
          FirstName := "", LastName := "" }).1 = .error err ∧
      err.Error sampleJwtText = "failed to check existing user: " ++ "mock error") ∧
    (∃ err, (Register sampleStdLib sampleHasher sampleFailingRepository () [1]
        { Username := "bob", Email := "b@x.com", Password := "pw123"
          FirstName := "", LastName := "" }).1 = .error err ∧
      err.Error sampleJwtText =
        "failed to create user: " ++ (RepoError.other "mock create error").Error) ∧
    (∃ err, Login sampleCrypto sampleHasher sampleFailingRepository () sampleManager 7
        { Identifier := "alice", Password := "pw123" } = .error err ∧
      err.Error sampleJwtText = "failed to get user: " ++ "mock error") ∧
    (∃ err, (Logout sampleCrypto sampleManager 7 (.malformed "garbage")).1 = some err ∧
      err.Error sampleJwtText = "failed to revoke token: " ++
        (RevokeError.failedToParse .ErrTokenMalformed).Error sampleJwtText) :=
  C23_service_errors_wrap_cause sampleCrypto sampleStdLib sampleHasher sampleJwtText
    sampleFailingRepository () [1]
    { Username := "alice", Email := "a@x.com", Password := "pw123"
      FirstName := "", LastName := "" }
    { Username := "bob", Email := "b@x.com", Password := "pw123"
      FirstName := "", LastName := "" }
    { Identifier := "alice", Password := "pw123" } sampleManager 7 (.malformed "garbage")
    "mock error" "mock error" "1$pw123" (.other "mock create error")
    (.failedToParse .ErrTokenMalformed)
    (by decide) (by decide) (by decide) (by decide) (by decide) (by decide) (by decide)
    (by decide) (by decide) (by decide)

/-- The auth handler writes the message of a service error as the response body
(`http.Error(w, err.Error(), ...)`): for the lookup failure "mock error" of `Register` the
body is the wrapped message and a newline.  The handlers of users and tasks write a fixed
text for a failed create instead. -/
theorem AuthHandler_RegisterError_body :
    (AuthHandler.RegisterError sampleJwtText
      (.failedToCheckExistingUser (.other "mock error"))).body =
      "failed to check existing user: mock error\n" := by
  decide

/-! ## The password hasher -/

theorem decodeNats_replicate (n : Nat) : ∀ (acc : Nat) (rest : List Char),
    decodeNats acc (List.replicate n 'x' ++ rest) = decodeNats (acc + n) rest := by
  induction n with
  | zero => intro acc rest; rfl
  | succ n ih =>
    intro acc rest
    rw [List.replicate_succ, List.cons_append, decodeNats, if_pos rfl, ih]
    congr 1
    omega

theorem decodeNats_encodeNats (ns : List Nat) : ∀ rest : List Char,
    decodeNats 0 (encodeNats ns ++ rest) = some (ns, rest) := by
  induction ns with
  | nil => intro rest; rfl
  | cons n ns ih =>
    intro rest
    rw [encodeNats, List.append_assoc, decodeNats_replicate, List.cons_append, decodeNats,
      if_neg (by decide), if_pos rfl, ih]
    simp

theorem sampleDigestScheme_lawful : sampleDigestScheme.Lawful := by
  refine ⟨?_, rfl⟩
  intro salt cost hash
  show sampleDecode _ = _
  unfold sampleDecode
  simp only [sampleDigestScheme]
  rw [decodeNats_encodeNats salt]
  simp only
  rw [decodeNats_encodeNats [cost]]
  simp only
  have h := decodeNats_encodeNats hash []
  rw [List.append_nil] at h
  rw [h]

/-- C24 (amended). Password verification accepts what hashing produced: for every
non-empty plaintext `p` and every digest `d` returned by `HashPassword(p)`, whatever salt
was drawn, `CheckPasswordHash(p, d)` returns true; so two digests of the same plaintext
both verify. -/
theorem C24_verify_accepts_hashed (D : DigestScheme) (hD : D.Lawful) (p : String)
    (hp : p ≠ "") :
    (∀ salt, ∃ d, HashPassword D salt p = .ok d) ∧
      ∀ salt d, HashPassword D salt p = .ok d → CheckPasswordHash D p d = true := by
  refine ⟨fun salt => ⟨_, rfl⟩, ?_⟩
  intro salt d hd
  simp only [HashPassword, Except.ok.injEq] at hd
  subst hd
  simp [CheckPasswordHash, hp, hD.1]

/-- C24 as stated fails in the model of the spec: the empty plaintext is hashed, and
`CheckPasswordHash` rejects the empty plaintext with the digest just produced. -/
theorem C24_counterexample :
    ∃ d, HashPassword sampleDigestScheme [1, 2] "" = .ok d ∧
      CheckPasswordHash sampleDigestScheme "" d = false :=
  ⟨_, rfl, rfl⟩

/-- C24 (amended), at a concrete input: the plaintext "pw123" under two salts. -/
theorem C24_witness :
    (("pw123" : String) ≠ "") ∧
    (∀ salt, ∃ d, HashPassword sampleDigestScheme salt "pw123" = .ok d) ∧
      ∀ salt d, HashPassword sampleDigestScheme salt "pw123" = .ok d →
        CheckPasswordHash sampleDigestScheme "pw123" d = true :=
  ⟨by decide, C24_verify_accepts_hashed sampleDigestScheme sampleDigestScheme_lawful "pw123"
    (by decide)⟩

/-- C25. `CheckPasswordHash` is a total function to the booleans, and it returns false for
the empty plaintext with every digest, for the empty digest with every plaintext, and for
a malformed digest (one that cannot be read back) with every plaintext. -/
theorem C25_verify_rejects (D : DigestScheme) (hD : D.Lawful) :
    (∀ hash, CheckPasswordHash D "" hash = false) ∧
      (∀ p, CheckPasswordHash D p "" = false) ∧
      ∀ p hash, D.decode hash = none → CheckPasswordHash D p hash = false := by
  refine ⟨fun hash => rfl, ?_, ?_⟩
  · intro p
    simp [CheckPasswordHash, hD.2]
  · intro p hash hnone
    simp [CheckPasswordHash, hnone]

/-- C25, at the sample digest scheme. -/
theorem C25_witness :
    (∀ hash, CheckPasswordHash sampleDigestScheme "" hash = false) ∧
      (∀ p, CheckPasswordHash sampleDigestScheme p "" = false) ∧
      ∀ p hash, sampleDigestScheme.decode hash = none →
        CheckPasswordHash sampleDigestScheme p hash = false :=
  C25_verify_rejects sampleDigestScheme sampleDigestScheme_lawful

/-! ## Login soundness and the stored user names -/

/-- C26. Login soundness: whenever `Login` on the in-memory store succeeds with credential
`c`, the identifier and the password are non-empty, `c` is a credential of the store, the
trimmed identifier equals `c.Username` or `c.Email`, `CheckPasswordHash` accepts the
password against `c.PasswordHash`, and the token returned is the one `GenerateToken`
issued for `c`; a response, and with it a token, comes out of no other path. -/
theorem C26_login_soundness (C : Crypto) (S : StdLib) (H : PasswordHasher)
    (mur : MemoryUserRepository) (n : Nondet) (tm : TokenManager) (now : Time)
    (req : LoginRequest) (response : LoginResponse)
    (hlogin : Login C H (memoryRepository S n) mur tm now req = .ok response) :
    req.Identifier ≠ "" ∧ req.Password ≠ "" ∧
      response.User ∈ mur.stored ∧
      (response.User.Username = TrimSpace req.Identifier ∨
        response.User.Email = TrimSpace req.Identifier) ∧
      H.CheckPasswordHash req.Password response.User.PasswordHash = true ∧
      GenerateToken C tm now response.User.ID response.User.Username response.User.Email =
        .ok response.Token := by
  unfold Login at hlogin
  split at hlogin
  · cases hlogin
  · rename_i hne
    simp only [not_or] at hne
    simp only [memoryRepository] at hlogin
    split at hlogin
    · cases hlogin
    · cases hlogin
    · rename_i user hget
      have huser := GetByUsernameOrEmail_ok _ _ _ _ _ hget
      split at hlogin
      · cases hlogin
      · rename_i hcheck
        rw [GenerateToken_eq] at hlogin
        simp only [Except.ok.injEq] at hlogin
        subst hlogin
        refine ⟨hne.1, hne.2, huser.1, huser.2, ?_, GenerateToken_eq _ _ _ _ _ _⟩
        simpa using hcheck

/-- C26, at a concrete input: the login of `sampleUser`. -/
theorem C26_witness :
    Login sampleCrypto sampleHasher (memoryRepository sampleStdLib sampleNondet) sampleStore
        sampleManager 7 { Identifier := " alice ", Password := "pw123" } = .ok sampleResponse ∧
    (" alice " : String) ≠ "" ∧ ("pw123" : String) ≠ "" ∧
      sampleResponse.User ∈ sampleStore.stored ∧
      (sampleResponse.User.Username = TrimSpace " alice " ∨
        sampleResponse.User.Email = TrimSpace " alice ") ∧
      sampleHasher.CheckPasswordHash "pw123" sampleResponse.User.PasswordHash = true ∧
      GenerateToken sampleCrypto sampleManager 7 sampleResponse.User.ID
        sampleResponse.User.Username sampleResponse.User.Email = .ok sampleResponse.Token :=
  ⟨by decide,
    C26_login_soundness sampleCrypto sampleStdLib sampleHasher sampleStore sampleNondet
      sampleManager 7 { Identifier := " alice ", Password := "pw123" } sampleResponse
      (by decide)⟩

/-- C27 fails on the code: a request whose user name consists of three blanks passes the
emptiness check, which comes before the trimming, and `Register` stores a credential whose
`Username` is the empty string. -/
theorem C27_failing_input :
    ∃ user mur,
      Register sampleStdLib sampleHasher (memoryRepository sampleStdLib sampleNondet)
        NewMemoryUserRepository [3]
        { Username := "   ", Email := "c@x.com", Password := "pwC"
          FirstName := "", LastName := "" } = (.ok (some user), mur) ∧
      user ∈ mur.stored ∧ user.Username = "" ∧ user.Email = "c@x.com" :=
  ⟨blankNameUser, { users := [(1, blankNameUser)] }, by decide, by decide, rfl, rfl⟩

/-! ## Revocation frame and token ids -/

/-- `ValidateToken` reads of the manager only the secret and whether the id of the token
is in the revocation set. -/
theorem ValidateToken_congr (C : Crypto) (tm tm' : TokenManager) (now : Time)
    (tok : TokenString) (hsecret : tm'.secret = tm.secret)
    (hmem : ∀ id, tok.jti = some id → (id ∈ tm'.revokedJTIs ↔ id ∈ tm.revokedJTIs)) :
    ValidateToken C tm' now tok = ValidateToken C tm now tok := by
  have hkey : tm'.keyFunc = tm.keyFunc := by
    funext m
    simp [TokenManager.keyFunc, hsecret]
  unfold ValidateToken
  rw [hkey]
  cases tok with
  | malformed raw => rfl
  | encoded m c s =>
    cases hparse : ParseWithClaims C now (.encoded m c s) tm.keyFunc with
    | error err => rfl
    | ok token =>
      have hclaims : token.Claims = c := by
        unfold ParseWithClaims at hparse
        simp only at hparse
        split at hparse
        · cases hparse
        · split at hparse
          · split at hparse
            · cases hparse
            · cases hparse
              rfl
          · cases hparse
      have := hmem c.ID rfl
      simp only [hclaims, this]

/-- C28. Revocation affects only the revoked id: a successful `RevokeToken(A)` turns the
revocation set into the set with the token id of `A` added and leaves the secret alone, so
that for every token string `B` whose token id differs from that of `A`, `ValidateToken(B)`
returns the same result before and after, at every clock reading; `GenerateToken` and
`ValidateToken` leave the manager as it is. -/
theorem C28_revocation_frame (C : Crypto) (tm : TokenManager) (t : Time) (A : TokenString)
    (hrevoked : (RevokeToken C tm t A).1 = none) :
    (∃ id, A.jti = some id ∧
      (RevokeToken C tm t A).2.revokedJTIs = insert id tm.revokedJTIs) ∧
    (∀ (B : TokenString) (now : Time), B.jti ≠ A.jti →
      ValidateToken C (RevokeToken C tm t A).2 now B = ValidateToken C tm now B) ∧
    (∀ now userID username email,
      Call.apply C tm (.GenerateToken now userID username email) = tm) ∧
    (∀ now B, Call.apply C tm (.ValidateToken now B) = tm) := by
  have hstate : ∃ id, A.jti = some id ∧
      (RevokeToken C tm t A).2.revokedJTIs = insert id tm.revokedJTIs := by
    cases A with
    | malformed raw => simp [RevokeToken, ParseWithClaims] at hrevoked
    | encoded m c s =>
      by_cases hv : m.Verify C (C.signingString m c) s tm.secret = true
      · rw [RevokeToken_verified C tm t m c s hv] at hrevoked ⊢
        by_cases hvalid : (verifyExpiresAt c t && verifyNotBefore c t) = true
        · exact ⟨c.ID, rfl, by simp [hvalid]⟩
        · simp [hvalid] at hrevoked
      · obtain ⟨err, herr⟩ := RevokeToken_rejected C tm t (.encoded m c s)
          (Or.inr ⟨m, c, s, rfl, Or.inr (by simpa using hv)⟩)
        rw [herr] at hrevoked
        simp at hrevoked
  refine ⟨hstate, ?_, fun _ _ _ _ => rfl, fun _ _ => rfl⟩
  obtain ⟨idA, hA, hset⟩ := hstate
  intro B now hdiff
  apply ValidateToken_congr C tm _ now B (RevokeToken_secret C tm t A)
  intro id hB
  rw [hset, Finset.mem_insert]
  constructor
  · rintro (h | h)
    · exact absurd (by rw [hA, hB, h]) hdiff
    · exact h
  · exact Or.inr

/-- C28, at a concrete input: the sample token is revoked at 1 s. -/
theorem C28_witness :
    (RevokeToken sampleCrypto sampleManager Second sampleToken).1 = none ∧
    (∃ id, sampleToken.jti = some id ∧
      (RevokeToken sampleCrypto sampleManager Second sampleToken).2.revokedJTIs =
        insert id sampleManager.revokedJTIs) ∧
    (∀ (B : TokenString) (now : Time), B.jti ≠ sampleToken.jti →
      ValidateToken sampleCrypto (RevokeToken sampleCrypto sampleManager Second sampleToken).2
        now B = ValidateToken sampleCrypto sampleManager now B) ∧
    (∀ now userID username email,
      Call.apply sampleCrypto sampleManager (.GenerateToken now userID username email) =
        sampleManager) ∧
    (∀ now B, Call.apply sampleCrypto sampleManager (.ValidateToken now B) = sampleManager) :=
  ⟨by decide, C28_revocation_frame sampleCrypto sampleManager Second sampleToken (by decide)⟩

/-- C29. The token-id format is injective: the id `GenerateToken` builds from the decimal
user id, an underscore and the decimal nanosecond clock reading is the same for two pairs
only when the pairs are the same, negative values included, so two issued tokens share an
id only if they were issued for the same user id at the same clock reading. -/
theorem C29_token_id_injective (C : Crypto) (tm₁ tm₂ : TokenManager) (now₁ now₂ : Time)
    (userID₁ userID₂ : Int) (username₁ email₁ username₂ email₂ : String) :
    (sprintfIdPair userID₁ now₁ = sprintfIdPair userID₂ now₂ ↔
      userID₁ = userID₂ ∧ now₁ = now₂) ∧
    ∃ tok₁ tok₂,
      GenerateToken C tm₁ now₁ userID₁ username₁ email₁ = .ok tok₁ ∧
      GenerateToken C tm₂ now₂ userID₂ username₂ email₂ = .ok tok₂ ∧
      tok₁.jti = some (sprintfIdPair userID₁ now₁) ∧
      tok₂.jti = some (sprintfIdPair userID₂ now₂) ∧
      (tok₁.jti = tok₂.jti → userID₁ = userID₂ ∧ now₁ = now₂) := by
  refine ⟨⟨sprintfIdPair_injective _ _ _ _, fun h => by rw [h.1, h.2]⟩, _, _,
    GenerateToken_eq _ _ _ _ _ _, GenerateToken_eq _ _ _ _ _ _, rfl, rfl, ?_⟩
  intro h
  exact sprintfIdPair_injective _ _ _ _ (Option.some.inj h)

/-! ## `CreateUser` -/

theorem foldl_maxID_mem (ids : List Int) : ∀ (start : Int),
    ids.foldl (fun maxID id => if id > maxID then id else maxID) start = start ∨
      ids.foldl (fun maxID id => if id > maxID then id else maxID) start ∈ ids := by
  induction ids with
  | nil => intro start; exact Or.inl rfl
  | cons a ids ih =>
    intro start
    simp only [List.foldl_cons, List.mem_cons]
    by_cases hc : a > start
    · simp only [hc, if_true]
      rcases ih a with h | h
      · exact Or.inr (Or.inl h)
      · exact Or.inr (Or.inr h)
    · simp only [hc, if_false]
      rcases ih start with h | h
      · exact Or.inl h
      · exact Or.inr (Or.inr h)

theorem maxID_eq_zero_or_mem (mur : MemoryUserRepository) :
    mur.maxID = 0 ∨ ∃ entry ∈ mur.users, entry.1 = mur.maxID := by
  rcases foldl_maxID_mem (mur.users.map Prod.fst) 0 with h | h
  · exact Or.inl h
  · right
    obtain ⟨entry, hmem, heq⟩ := List.mem_map.mp h
    exact ⟨entry, hmem, heq⟩

/-- `CreateUser` on a user without an id, in a store whose largest id is below
`MaxInt64`: the next id is assigned, the time stamps are set and the user is added to the
map. -/
theorem CreateUser_zero (S : StdLib) (mur : MemoryUserRepository) (n : Nondet) (user : User)
    (hid : user.ID = 0) (hbound : mur.maxID < MaxInt64) :
    mur.CreateUser S n (some user) =
      (some (stampTimes S n { user with ID := mur.maxID + 1 }),
        { users := mur.users ++
            [(mur.maxID + 1, stampTimes S n { user with ID := mur.maxID + 1 })] }) := by
  have hstamp : (stampTimes S n { user with ID := mur.maxID + 1 }).ID = mur.maxID + 1 := by
    unfold stampTimes
    simp only
    split <;> split <;> rfl
  have hset := mapSet_of_lookup_none mur.users (mur.maxID + 1)
    (stampTimes S n { user with ID := mur.maxID + 1 }) (lookup_maxID_succ mur)
  simp only [MemoryUserRepository.CreateUser, hid, if_true, wrapInt64_maxID_succ mur hbound,
    lookup_maxID_succ, Option.isSome_none, Bool.false_eq_true, if_false]
  unfold stampTimes at hstamp hset ⊢
  simp only at hstamp hset ⊢
  rw [hstamp, hset]

theorem stampTimes_fields (S : StdLib) (n : Nondet) (user : User) :
    (stampTimes S n user).ID = user.ID ∧
      (stampTimes S n user).Username = user.Username ∧
      (stampTimes S n user).Email = user.Email ∧
      (stampTimes S n user).PasswordHash = user.PasswordHash ∧
      (stampTimes S n user).FirstName = user.FirstName ∧
      (stampTimes S n user).LastName = user.LastName ∧
      (stampTimes S n user).CreatedAt =
        (if user.CreatedAt = "" then S.formatRFC3339Nano n.now₁ else user.CreatedAt) ∧
      (stampTimes S n user).UpdatedAt =
        (if user.UpdatedAt = "" then S.formatRFC3339Nano n.now₂ else user.UpdatedAt) := by
  unfold stampTimes
  simp only
  split <;> split <;> simp_all

/-- C30 as stated fails.  In `maxIDStore`, whose largest id is `MaxInt64`, `CreateUser`
gives a user with `ID` 0 the id `MinInt64`: the sum wraps around, and the id is not
1 + the largest id but below every id of the map.  In `wrappedStore`, which also holds
`MinInt64`, `CreateUser` finds the wrapped id taken, returns nil and stores nothing. -/
theorem C30_counterexample :
    maxIDStore.maxID = MaxInt64 ∧
    (maxIDStore.CreateUser sampleStdLib sampleNondet (some unnumberedUser)).1.map User.ID =
      some MinInt64 ∧
    MinInt64 ≠ maxIDStore.maxID + 1 ∧
    wrappedStore.maxID = MaxInt64 ∧
    wrappedStore.CreateUser sampleStdLib sampleNondet (some unnumberedUser) =
      (none, wrappedStore) := by
  decide

/-- C30 (amended). For every in-memory user store whose largest id is below `MaxInt64`
and every user with `ID` 0, `CreateUser` returns the user with `ID` 1 + the largest id of
the map (1 when no id is positive), which is not zero and was not present, stores it so
that `GetUser(ID)` returns it, sets `CreatedAt` and `UpdatedAt` to the formatted clock
readings when they were empty, keeps the other fields, and leaves every user that
`GetUser` returned before as it was. -/
theorem C30_create_user_assigns_id (S : StdLib) (mur : MemoryUserRepository) (n : Nondet)
    (user : User) (hid : user.ID = 0) (hbound : mur.maxID < MaxInt64) :
    ∃ created mur', mur.CreateUser S n (some user) = (some created, mur') ∧
      created.ID = mur.maxID + 1 ∧
      (∀ entry ∈ mur.users, entry.1 ≤ mur.maxID) ∧ 0 ≤ mur.maxID ∧
      (mur.maxID = 0 ∨ ∃ entry ∈ mur.users, entry.1 = mur.maxID) ∧
      created.ID ≠ 0 ∧ mur.GetUser created.ID = .error .ErrUserNotFound ∧
      mur'.GetUser created.ID = .ok created ∧
      created.CreatedAt =
        (if user.CreatedAt = "" then S.formatRFC3339Nano n.now₁ else user.CreatedAt) ∧
      created.UpdatedAt =
        (if user.UpdatedAt = "" then S.formatRFC3339Nano n.now₂ else user.UpdatedAt) ∧
      created.Username = user.Username ∧ created.Email = user.Email ∧
      created.PasswordHash = user.PasswordHash ∧
      created.FirstName = user.FirstName ∧ created.LastName = user.LastName ∧
      ∀ id u, mur.GetUser id = .ok u → mur'.GetUser id = .ok u := by
  have hf := stampTimes_fields S n { user with ID := mur.maxID + 1 }
  have hpos := maxID_nonneg mur
  refine ⟨_, _, CreateUser_zero S mur n user hid hbound, hf.1,
    fun entry h => le_maxID mur entry h,
    hpos, maxID_eq_zero_or_mem mur, ?_, ?_, ?_, hf.2.2.2.2.2.2.1, hf.2.2.2.2.2.2.2,
    hf.2.1, hf.2.2.1, hf.2.2.2.1, hf.2.2.2.2.1, hf.2.2.2.2.2.1, ?_⟩
  · rw [hf.1]
    show mur.maxID + 1 ≠ 0
    omega
  · rw [hf.1]
    simp [MemoryUserRepository.GetUser, lookup_maxID_succ]
  · rw [hf.1]
    simp [MemoryUserRepository.GetUser, List.lookup_append, lookup_maxID_succ]
  · intro id u hget
    unfold MemoryUserRepository.GetUser at hget ⊢
    cases hl : mur.users.lookup id with
    | none => rw [hl] at hget; cases hget
    | some v =>
      rw [hl] at hget
      simp only [List.lookup_append, hl, Option.or_some]
      exact hget

/-- C30 (amended), at a concrete input: a second user created in `sampleStore`. -/
theorem C30_witness :
    (unnumberedUser.ID = 0 ∧ sampleStore.maxID < MaxInt64) ∧
    ∃ created mur',
      sampleStore.CreateUser sampleStdLib sampleNondet (some unnumberedUser) =
        (some created, mur') ∧
      created.ID = sampleStore.maxID + 1 ∧
      (∀ entry ∈ sampleStore.users, entry.1 ≤ sampleStore.maxID) ∧ 0 ≤ sampleStore.maxID ∧
      (sampleStore.maxID = 0 ∨ ∃ entry ∈ sampleStore.users, entry.1 = sampleStore.maxID) ∧
      created.ID ≠ 0 ∧ sampleStore.GetUser created.ID = .error .ErrUserNotFound ∧
      mur'.GetUser created.ID = .ok created ∧
      created.CreatedAt =
        (if unnumberedUser.CreatedAt = "" then sampleStdLib.formatRFC3339Nano sampleNondet.now₁
          else unnumberedUser.CreatedAt) ∧
      created.UpdatedAt =
        (if unnumberedUser.UpdatedAt = "" then sampleStdLib.formatRFC3339Nano sampleNondet.now₂
          else unnumberedUser.UpdatedAt) ∧
      created.Username = unnumberedUser.Username ∧ created.Email = unnumberedUser.Email ∧
      created.PasswordHash = unnumberedUser.PasswordHash ∧
      created.FirstName = unnumberedUser.FirstName ∧
      created.LastName = unnumberedUser.LastName ∧
      ∀ id u, sampleStore.GetUser id = .ok u → mur'.GetUser id = .ok u :=
  ⟨⟨rfl, by decide⟩,
    C30_create_user_assigns_id sampleStdLib sampleStore sampleNondet unnumberedUser rfl
      (by decide)⟩

end VoidRunner
